import Mathlib

/-!
Verification development for the llm_tester exam pipeline.

The Python source (app/core/grader.py, validator.py, generator.py, parser.py and
app/models/schemas.py) is shallowly embedded below.  Python floats are modelled
as exact rationals (`ℚ`); `round(x, n)` is modelled by `pyRound n`, Python's
round-half-to-even on rationals.  Python `None` becomes `Option.none`,
exceptions become `Except.error`, and Python `set`s become `Finset`s.
-/

namespace LlmTester

/-- Python `round` to an integer: round half to even (banker's rounding),
modelled on exact rationals. -/
def roundHalfEven (q : ℚ) : ℤ :=
  let f := ⌊q⌋
  let r := q - (f : ℚ)
  if r < 1/2 then f
  else if (1 : ℚ)/2 < r then f + 1
  else if f % 2 = 0 then f else f + 1

/-- Python `round(q, ndigits)` on exact rationals. -/
def pyRound (ndigits : ℕ) (q : ℚ) : ℚ :=
  (roundHalfEven (q * (10 : ℚ) ^ ndigits) : ℚ) / (10 : ℚ) ^ ndigits

/-- Python `sorted` on integer lists (`grader.py` sorts answer-index lists). -/
def pySorted (l : List ℤ) : List ℤ := l.mergeSort (fun a b => a ≤ b)

/-- Characters matched by the term-extraction regex class
`[A-Za-zА-Яа-я0-9]` of `validator.py` / `grader.py` (`А`..`я` is the
contiguous Unicode block U+0410..U+044F). -/
def isTermChar (c : Char) : Bool :=
  ('A' ≤ c && c ≤ 'Z') || ('a' ≤ c && c ≤ 'z') ||
  ('0' ≤ c && c ≤ '9') || ('А' ≤ c && c ≤ 'я')

/-- Python `str.lower`, restricted to the alphabets the source's texts use
(ASCII and Cyrillic; other characters are kept unchanged). -/
def pyLowerChar (c : Char) : Char :=
  if 'A' ≤ c && c ≤ 'Z' then Char.ofNat (c.toNat + 32)
  else if 'А' ≤ c && c ≤ 'Я' then Char.ofNat (c.toNat + 32)
  else if c = 'Ё' then 'ё'
  else c

/-- Python `str.lower` applied character-wise. -/
def pyLower (s : String) : String := String.mk (s.data.map pyLowerChar)

/-- Maximal runs of characters satisfying `keep`, in order.  `re.findall`
with the greedy pattern `[class]{4,}` returns exactly the maximal runs of
class characters that have length at least 4, so term extraction is
`maximalRuns` followed by a length filter. -/
def maximalRuns (keep : Char → Bool) : List Char → List Char → List (List Char)
  | [], acc => if acc.isEmpty then [] else [acc.reverse]
  | c :: rest, acc =>
      if keep c then maximalRuns keep rest (c :: acc)
      else if acc.isEmpty then maximalRuns keep rest []
      else acc.reverse :: maximalRuns keep rest []

/-- The list `re.findall(r"[A-Za-zА-Яа-я0-9]{4,}", text.lower())`. -/
def termList (text : String) : List String :=
  ((maximalRuns isTermChar (pyLower text).data []).filter
    (fun r => 4 ≤ r.length)).map (fun r => String.mk r)

/-- `QuestionValidator._extract_terms`: lowercase alphanumeric terms of length
at least 4, as a set (no stopword filtering in the validator). -/
def validatorTerms (text : String) : Finset String := (termList text).toFinset

/-- The stopword list of `Grader._extract_terms`. -/
def graderStopwords : List String :=
  ["about", "question", "answer", "what", "which", "explain", "select", "choose"]

/-- `Grader._extract_terms`: like `validatorTerms` but with stopwords removed. -/
def graderTerms (text : String) : Finset String :=
  ((termList text).filter (fun t => !(graderStopwords.contains t))).toFinset

/-- Python whitespace for `str.split()` (no argument form). -/
def pyWhitespace (c : Char) : Bool :=
  c = ' ' || c = '\t' || c = '\n' || c = '\r' || c = '\x0b' || c = '\x0c'

/-- Python `str.split()`: maximal runs of non-whitespace characters. -/
def pySplitWhitespace (s : String) : List String :=
  (maximalRuns (fun c => !pyWhitespace c) s.data []).map (fun r => String.mk r)

/-- `len(s.split())`, the word count used for the `answer_length` metric. -/
def wordCount (s : String) : ℕ := (pySplitWhitespace s).length

/-! ### Data model (app/models/schemas.py) -/

/-- The `type` literal of `Question`. -/
inductive QuestionType
  | singleChoice
  | multipleChoice
  | openEnded
deriving DecidableEq, Repr

/-- `SourceReference` of schemas.py. -/
structure SourceReference where
  file : String
  heading : Option String
  start : ℤ
  «end» : ℤ
deriving DecidableEq, Repr

/-- `QuestionMeta` of schemas.py (difficulty kept as its literal string). -/
structure QuestionMeta where
  difficulty : String
  tags : List String
deriving DecidableEq, Repr

/-- `Question` of schemas.py.  The pydantic field validators (options count,
correct-index bounds, ...) are not baked into the type; theorems state them
as hypotheses where needed. -/
structure Question where
  id : String
  type : QuestionType
  stem : String
  options : Option (List String)
  correct : Option (List ℤ)
  referenceAnswer : Option String
  rubric : Option (List String)
  sourceRefs : List SourceReference
  meta : QuestionMeta
deriving DecidableEq, Repr

/-- `ExamConfig` after its `sync_counts_and_ratios` model validator has run:
all three counts are set (they are `ℤ` because the ratio branch assigns
`total_questions - single - multiple`, which plain attribute assignment does
not re-validate against the `ge=0` field constraint). -/
structure ExamConfig where
  singleChoiceCount : ℤ
  multipleChoiceCount : ℤ
  openEndedCount : ℤ
  totalQuestions : ℕ
  singleChoiceRatio : ℚ
  multipleChoiceRatio : ℚ
  openEndedRatio : ℚ
  difficulty : String
  language : String
  seed : Option ℤ
deriving DecidableEq, Repr

/-- `Exam` of schemas.py. -/
structure Exam where
  examId : String
  questions : List Question
  configUsed : ExamConfig
deriving DecidableEq, Repr

/-- `StudentAnswer` of schemas.py: `choice` and `text_answer` are both
optional (its validator only requires one of them to be present). -/
structure StudentAnswer where
  questionId : String
  choice : Option (List ℤ)
  textAnswer : Option String
deriving DecidableEq, Repr

/-- `GradeRequest` of schemas.py. -/
structure GradeRequest where
  examId : String
  answers : List StudentAnswer
deriving DecidableEq, Repr

/-- The metrics dict built by `Grader._compute_open_ended_metrics`. -/
structure Metrics where
  rubricCoverage : ℚ
  referenceOverlap : ℚ
  answerLength : ℚ
deriving DecidableEq, Repr

/-- The per-question result as the `Grader` constructs it.  The pydantic
`QuestionResult` schema declares only the first seven fields; `rubric_scores`
and `metrics` are passed by grader.py as extra constructor keywords (which the
schema, with pydantic's default `extra='ignore'`, does not retain).  We keep
them here so the grader's behaviour on them can be stated. -/
structure QuestionResult where
  questionId : String
  isCorrect : Bool
  expected : Option (List ℤ)
  given : Option (List ℤ)
  givenText : Option String
  partialCredit : ℚ
  feedback : Option String
  rubricScores : Option (List ℤ)
  metrics : Option Metrics
deriving DecidableEq, Repr

/-- `GradeSummary` of schemas.py. -/
structure GradeSummary where
  total : ℕ
  correct : ℕ
  scorePercent : ℚ
deriving DecidableEq, Repr

/-- `GradeResponse` of schemas.py. -/
structure GradeResponse where
  examId : String
  summary : GradeSummary
  perQuestion : List QuestionResult
deriving DecidableEq, Repr

/-! ### Grader (app/core/grader.py) -/

/-- `Grader.calculate_partial_credit`: signed partial credit over the answer
sets, clamped to `[0, 1]`, `0` when no correct answer is expected. -/
def calculatePartialCredit (expected given : List ℤ) : ℚ :=
  let expectedSet := expected.toFinset
  let givenSet := given.toFinset
  let correctSelected := (expectedSet ∩ givenSet).card
  let wrongSelected := (givenSet \ expectedSet).card
  let totalExpected := expectedSet.card
  if totalExpected = 0 then 0
  else max 0 (min 1 (((correctSelected : ℚ) - (wrongSelected : ℚ)) / (totalExpected : ℚ)))

/-- The `credit` computed by the multiple-choice branch of
`Grader._grade_choice_question` (before the 4-decimal presentation rounding):
`1.0` on a full sorted match, else partial credit when enabled, else `0.0`. -/
def multipleChoiceCredit (expected given : List ℤ) (usePartialCredit : Bool) : ℚ :=
  if pySorted expected = pySorted given then 1
  else if usePartialCredit then calculatePartialCredit expected given
  else 0

/-- `Grader._grade_choice_question`.  For `single_choice` Python compares
`given == expected` directly (list equality over the optional values; `None`
compares unequal to any list).  For the other types it calls
`sorted(expected)` / `sorted(given)`, which raises `TypeError` when either is
`None`; that exception is the `Except.error` case. -/
def gradeChoiceQuestion (q : Question) (given : Option (List ℤ))
    (usePartialCredit : Bool) : Except String QuestionResult :=
  let expected := q.correct
  if q.type = QuestionType.singleChoice then
    let isCorrect : Bool := given = expected
    let credit : ℚ := if isCorrect then 1 else 0
    Except.ok ⟨q.id, isCorrect, expected, given, none, pyRound 4 credit, none, none, none⟩
  else
    match expected, given with
    | some e, some g =>
        let isCorrect : Bool := pySorted e = pySorted g
        Except.ok ⟨q.id, isCorrect, expected, given, none,
          pyRound 4 (multipleChoiceCredit e g usePartialCredit), none, none, none⟩
    | _, _ => Except.error "TypeError: NoneType object is not iterable"

/-- Result of the external `grade_open_ended` capability (§6 of the spec):
a normalized score, per-rubric-item scores and feedback. -/
structure GradingResult where
  score : ℚ
  rubricScores : List ℤ
  feedback : String
deriving DecidableEq, Repr

/-- The external grading capability: `(stem, reference_answer, rubric,
student_answer, language)` to a grading result or a failure. -/
abbrev OpenEndedCap :=
  String → Option String → Option (List String) → String → String →
    Except String GradingResult

/-- `Grader._compute_open_ended_metrics`. -/
def computeOpenEndedMetrics (rubricScores : List ℤ) (_rubric : Option (List String))
    (studentAnswer : String) (referenceAnswer : Option String) : Metrics :=
  let rubricLen : ℕ := if rubricScores.isEmpty then 0 else rubricScores.length
  let rubricCoverage : ℚ := if rubricLen = 0 then 0 else (rubricScores.sum : ℚ) / (rubricLen : ℚ)
  let answerLength : ℚ := if studentAnswer = "" then 0 else (wordCount studentAnswer : ℚ)
  let referenceOverlap : ℚ :=
    match referenceAnswer with
    | none => 0
    | some ref =>
        if ref = "" then 0
        else
          let refTerms := graderTerms ref
          let studentTerms := graderTerms studentAnswer
          if refTerms = ∅ then 0
          else ((refTerms ∩ studentTerms).card : ℚ) / (refTerms.card : ℚ)
  ⟨pyRound 4 rubricCoverage, pyRound 4 referenceOverlap, answerLength⟩
  -- rubric itself is received but unused, exactly as in the source

/-- The fixed result `Grader._grade_open_ended_question` returns when no text
answer was submitted. -/
def noAnswerResult (q : Question) : QuestionResult :=
  ⟨q.id, false, none, none, some "", 0, some "No answer provided.",
    some (List.replicate (q.rubric.getD []).length 0), some ⟨0, 0, 0⟩⟩

/-- `Grader._grade_open_ended_question`.  A falsy (`None` or empty) text
answer short-circuits to `noAnswerResult` without consulting the capability;
a capability failure is caught and becomes the zero-credit fallback result. -/
def gradeOpenEndedQuestion (q : Question) (sa : StudentAnswer) (cap : OpenEndedCap)
    (language : String) : QuestionResult :=
  match sa.textAnswer with
  | none => noAnswerResult q
  | some t =>
    if t = "" then noAnswerResult q
    else
      match cap q.stem q.referenceAnswer q.rubric t language with
      | Except.ok gr =>
          let isCorrect : Bool := (7 : ℚ)/10 ≤ gr.score
          let metrics := computeOpenEndedMetrics gr.rubricScores q.rubric t q.referenceAnswer
          ⟨q.id, isCorrect, none, none, some t, pyRound 4 gr.score, some gr.feedback,
            some gr.rubricScores, some metrics⟩
      | Except.error e =>
          ⟨q.id, false, none, none, some t, 0, some ("Grading failed: " ++ e),
            some (List.replicate (q.rubric.getD []).length 0),
            some ⟨0, 0, if t = "" then 0 else (wordCount t : ℚ)⟩⟩

/-- The question lookup dict `{q.id: q for q in exam.questions}`: a later
question with the same id overwrites an earlier one. -/
def questionLookup (exam : Exam) (qid : String) : Option Question :=
  exam.questions.reverse.find? (fun q => q.id = qid)

/-- One iteration of the grading loop in `Grader.grade`: dispatch on the
question type. -/
def gradeAnswer (exam : Exam) (cap : OpenEndedCap) (usePartialCredit : Bool)
    (language : String) (sa : StudentAnswer) : Except String QuestionResult :=
  match questionLookup exam sa.questionId with
  | none => Except.error ("Question ID not found: " ++ sa.questionId)
  | some q =>
      if q.type = QuestionType.openEnded then
        Except.ok (gradeOpenEndedQuestion q sa cap language)
      else gradeChoiceQuestion q sa.choice usePartialCredit

/-- `Grader.grade`: fail fast on an empty request or an unknown question id,
then grade each answer in order and aggregate the summary. -/
def grade (exam : Exam) (request : GradeRequest) (usePartialCredit : Bool)
    (cap : OpenEndedCap) : Except String GradeResponse :=
  if request.answers.isEmpty then
    Except.error "GradeRequest must contain at least one answer"
  else if request.answers.any (fun sa => (questionLookup exam sa.questionId).isNone) then
    Except.error "Question ID not found in exam"
  else
    let language := exam.configUsed.language
    match request.answers.mapM (gradeAnswer exam cap usePartialCredit language) with
    | Except.error e => Except.error e
    | Except.ok results =>
        let totalQuestions := results.length
        let correctCount := (results.filter (fun r => r.isCorrect)).length
        let totalCredit := (results.map (fun r => r.partialCredit)).sum
        let scorePercent : ℚ :=
          if totalQuestions > 0 then totalCredit / (totalQuestions : ℚ) * 100 else 0
        Except.ok ⟨request.examId, ⟨totalQuestions, correctCount, pyRound 2 scorePercent⟩, results⟩

/-! ### Parser data model (app/core/parser.py) -/

/-- Python `str.strip()`: drop leading and trailing whitespace. -/
def pyStrip (s : String) : String :=
  String.mk (((s.data.dropWhile pyWhitespace).reverse.dropWhile pyWhitespace).reverse)

/-- `ParsedSection` of parser.py. -/
structure ParsedSection where
  heading : String
  content : String
  level : ℕ
  startPos : ℕ
  endPos : ℕ
deriving DecidableEq, Repr

/-- `ParsedDocument` of parser.py. -/
structure ParsedDocument where
  title : Option String
  sections : List ParsedSection
  sourceText : String
deriving DecidableEq, Repr

/-! ### Validator (app/core/validator.py) -/

/-- `ValidationResult` of validator.py. -/
structure ValidationResult where
  valid : Bool
  issues : List String
  groundedRatio : ℚ
  sectionCoverage : ℚ
deriving DecidableEq, Repr

/-- The text the grounding heuristic inspects for a question:
`f-string` `q.stem`, a space, and `q.reference_answer or ''`. -/
def questionText (q : Question) : String :=
  q.stem ++ " " ++ q.referenceAnswer.getD ""

/-- The lexical overlap between a question's text and the document terms. -/
def questionOverlap (docTerms : Finset String) (q : Question) : ℕ :=
  (validatorTerms (questionText q) ∩ docTerms).card

/-- A question counts as grounded when the overlap is at least one term. -/
def questionGrounded (docTerms : Finset String) (q : Question) : Bool :=
  1 ≤ questionOverlap docTerms q

/-- `referenced_headings.add(ref.heading)` guarded by `if ref.heading:`
(a `None` or empty heading is not added). -/
def refHeadingStep (acc : Finset String) (ref : SourceReference) : Finset String :=
  match ref.heading with
  | some h => if h = "" then acc else insert h acc
  | none => acc

/-- The distinct truthy headings referenced by a question's source refs. -/
def questionRefHeadings (acc : Finset String) (q : Question) : Finset String :=
  q.sourceRefs.foldl refHeadingStep acc

/-- The distinct truthy section headings referenced by any question of the
list (the set `referenced_headings` accumulates over the validation loop). -/
def referencedHeadingsOf (questions : List Question) : Finset String :=
  questions.foldl questionRefHeadings ∅

/-- One `for ref in q.source_refs` iteration of `validate_exam`: collect the
truthy heading and append span/bounds issues, in source order. -/
def refCheckStep (qid : String) (docLen : ℕ) (acc : List String × Finset String)
    (ref : SourceReference) : List String × Finset String :=
  let heads := refHeadingStep acc.2 ref
  let i1 :=
    if ref.start < 0 || ref.«end» < 0 || ref.start > ref.«end» then
      acc.1 ++ ["Question " ++ qid ++ " has invalid source span (" ++
        toString ref.start ++ ", " ++ toString ref.«end» ++ ")"]
    else acc.1
  let i2 :=
    if docLen ≠ 0 && (docLen : ℤ) < ref.«end» then
      i1 ++ ["Question " ++ qid ++ " source_refs out of source bounds"]
    else i1
  (i2, heads)

/-- The per-reference checks of `validate_exam`: a missing `source_refs` list
is an issue; otherwise every reference is checked in order. -/
def refsCheck (q : Question) (docLen : ℕ) (issues : List String)
    (refs : Finset String) : List String × Finset String :=
  if q.sourceRefs.isEmpty then
    (issues ++ ["Question " ++ q.id ++ " missing source_refs"], refs)
  else
    q.sourceRefs.foldl (refCheckStep q.id docLen) (issues, refs)

/-- The type-specific checks of `validate_exam`.  For a choice question with
a non-empty `correct` list but `options = None`, Python evaluates
`len(q.options)` and raises `TypeError` (`Except.error`). -/
def typeCheck (q : Question) (issues : List String) : Except String (List String) :=
  match q.type with
  | QuestionType.singleChoice | QuestionType.multipleChoice =>
      let i1 :=
        if (match q.options with | none => true | some o => decide (o.length < 3)) then
          issues ++ ["Question " ++ q.id ++ " has insufficient options"]
        else issues
      match q.correct with
      | none => Except.ok (i1 ++ ["Question " ++ q.id ++ " has invalid correct indices"])
      | some [] => Except.ok (i1 ++ ["Question " ++ q.id ++ " has invalid correct indices"])
      | some (c :: cs) =>
          match q.options with
          | none => Except.error "TypeError: object of type NoneType has no len()"
          | some opts =>
              if (c :: cs).any (fun idx => decide ((opts.length : ℤ) ≤ idx) || decide (idx < 0)) then
                Except.ok (i1 ++ ["Question " ++ q.id ++ " has invalid correct indices"])
              else Except.ok i1
  | QuestionType.openEnded =>
      let i1 :=
        if (match q.referenceAnswer with | none => true | some r => decide (pyStrip r = "")) then
          issues ++ ["Question " ++ q.id ++ " missing reference answer"]
        else issues
      if (match q.rubric with | none => true | some ru => decide (ru.length < 2)) then
        Except.ok (i1 ++ ["Question " ++ q.id ++ " missing rubric items"])
      else Except.ok i1

/-- The running state of the `validate_exam` loop. -/
structure ValidatorState where
  stems : Finset String
  issues : List String
  referencedHeadings : Finset String
  groundedCount : ℕ

/-- One iteration of the `validate_exam` question loop. -/
def validateQuestion (docLen : ℕ) (docTerms : Finset String)
    (st : ValidatorState) (q : Question) : Except String ValidatorState :=
  let issues1 :=
    if q.stem ∈ st.stems then
      st.issues ++ ["Duplicate stem detected: " ++ q.stem.take 50]
    else st.issues
  let stems1 := insert q.stem st.stems
  let p := refsCheck q docLen issues1 st.referencedHeadings
  match typeCheck q p.1 with
  | Except.error e => Except.error e
  | Except.ok issues3 =>
      if questionOverlap docTerms q < 1 then
        Except.ok ⟨stems1,
          issues3 ++ ["Question " ++ q.id ++ " may be ungrounded (no source term overlap)"],
          p.2, st.groundedCount⟩
      else Except.ok ⟨stems1, issues3, p.2, st.groundedCount + 1⟩

/-- The distinct truthy section headings of a parsed document
(`{s.heading for s in document.sections if s.heading}`). -/
def sectionHeadingsOf (document : ParsedDocument) : Finset String :=
  ((document.sections.map (fun s => s.heading)).filter (fun h => h ≠ "")).toFinset

/-- `QuestionValidator.validate_exam`. -/
def validateExam (exam : Exam) (document : ParsedDocument) : Except String ValidationResult :=
  let docText := document.sourceText
  let docLen := docText.length
  let sectionHeadings := sectionHeadingsOf document
  let docTerms := validatorTerms docText
  match exam.questions.foldlM (validateQuestion docLen docTerms) ⟨∅, [], ∅, 0⟩ with
  | Except.error e => Except.error e
  | Except.ok st =>
      let groundedRatio : ℚ :=
        if exam.questions.isEmpty then 0
        else (st.groundedCount : ℚ) / (exam.questions.length : ℚ)
      let sectionCoverage : ℚ :=
        if sectionHeadings = ∅ then 0
        else ((st.referencedHeadings ∩ sectionHeadings).card : ℚ) / (sectionHeadings.card : ℚ)
      Except.ok ⟨decide (st.issues = []), st.issues, pyRound 3 groundedRatio,
        pyRound 3 sectionCoverage⟩

/-! ### ExamConfig resolution (schemas.py, `sync_counts_and_ratios`) -/

/-- Python `int()` on a rational: truncation toward zero (`Int.tdiv` is
Lean's truncating division; Lean's `/` on `ℤ` rounds toward minus
infinity for positive divisors and would differ on negative inputs). -/
def pyInt (q : ℚ) : ℤ := q.num.tdiv (q.den : ℤ)

/-- Fuel-bounded binade search, upward half: doubles `q` until it reaches
`[1, 2)`, decrementing the exponent accumulator. -/
def flExpUp : ℕ → ℚ → ℤ → ℤ
  | 0, _, e => e
  | f + 1, q, e => if 1 ≤ q then e else flExpUp f (2 * q) (e - 1)

/-- Fuel-bounded binade search, downward half: halves `q` until it reaches
`[1, 2)`, incrementing the exponent accumulator. -/
def flExpDown : ℕ → ℚ → ℤ → ℤ
  | 0, _, e => e
  | f + 1, q, e => if q < 2 then e else flExpDown f (q / 2) (e + 1)

/-- Binade exponent of a positive rational: the `e` with `2^e ≤ q < 2^(e+1)`
(correct for `2^(-1100) ≤ q < 2^1100`, far beyond every magnitude that
arises in `ExamConfig` resolution). -/
def flExp (q : ℚ) : ℤ := if q < 1 then flExpUp 1100 q 0 else flExpDown 1100 q 0

/-- Rounding of a rational to an IEEE-754 binary64 value (Python's `float`):
round to 53 significant bits, nearest, ties to even.  This models every
arithmetic result in the normal range; overflow and subnormals (magnitudes
below `2^-1022`) do not arise in the quantities `sync_counts_and_ratios`
computes. -/
def fl (q : ℚ) : ℚ :=
  if q = 0 then 0
  else
    (roundHalfEven (q * (2 : ℚ) ^ (52 - flExp |q|)) : ℚ) * (2 : ℚ) ^ (flExp |q| - 52)

/-- The value of the Python literal `0.01`: the binary64 double nearest to
1/100, namely `5764607523034235 * 2^-59` (slightly above 1/100). -/
def d01 : ℚ := 5764607523034235 / 576460752303423488

/-- The `sync_counts_and_ratios` model validator of `ExamConfig`.  Inputs are
the raw fields after pydantic's per-field validation (counts, when given, are
non-negative integers; `total_questions` is in `1..100`; each ratio is in
`[0, 1]`); the result is the constructed config or a `ValueError`.  The
count inputs are integers, so the source's `round(...)` calls are the
identity and are omitted.  Every float operation of the source — the
left-associated ratio sum, the subtraction inside
`abs(total_ratio - 1.0) > 0.01`, the products `total_questions * ratio`
truncated by `int()`, and the count-mode divisions `count / total_count` —
rounds its result to a double, modelled by `fl`; the comparison itself is
exact, against the double `0.01` (`d01`).  Note that the ratio branch
assigns the resolved counts by plain attribute assignment, which pydantic
does not re-validate. -/
def syncCountsAndRatios (singleChoiceCount multipleChoiceCount openEndedCount : Option ℕ)
    (totalQuestions : ℕ) (singleChoiceRatio multipleChoiceRatio openEndedRatio : ℚ)
    (difficulty language : String) (seed : Option ℤ) : Except String ExamConfig :=
  if singleChoiceCount.isSome || multipleChoiceCount.isSome || openEndedCount.isSome then
    let s := singleChoiceCount.getD 0
    let m := multipleChoiceCount.getD 0
    let o := openEndedCount.getD 0
    let totalCount := s + m + o
    if totalCount = 0 then Except.error "At least one count must be positive"
    else if totalCount > 100 then Except.error "Total questions exceeds maximum of 100"
    else Except.ok ⟨(s : ℤ), (m : ℤ), (o : ℤ), totalCount,
      fl ((s : ℚ) / (totalCount : ℚ)), fl ((m : ℚ) / (totalCount : ℚ)),
      fl ((o : ℚ) / (totalCount : ℚ)), difficulty, language, seed⟩
  else
    let totalRatio := fl (fl (singleChoiceRatio + multipleChoiceRatio) + openEndedRatio)
    if |fl (totalRatio - 1)| > d01 then Except.error "Ratios must sum to 1.0"
    else
      let singleCount := pyInt (fl ((totalQuestions : ℚ) * singleChoiceRatio))
      let multipleCount := pyInt (fl ((totalQuestions : ℚ) * multipleChoiceRatio))
      let openCount := (totalQuestions : ℤ) - singleCount - multipleCount
      Except.ok ⟨singleCount, multipleCount, openCount, totalQuestions,
        singleChoiceRatio, multipleChoiceRatio, openEndedRatio, difficulty, language, seed⟩

/-! ### Generator retry loop (app/core/generator.py, `QuestionGenerator.generate`)

The per-round candidate production (the sequence of LLM calls) and the
validation verdict are abstracted as functions `rounds : ℕ → α` (the full
candidate set produced on attempt `i`) and `valid : α → Bool`; the control
flow of the bounded `for attempt in range(max_validation_attempts)` loop with
its two `break`s is embedded directly.  `generateAttempts attempt fuel`
models the loop from iteration `attempt` on, with `fuel = maxAttempts -
attempt` iterations remaining; the source's retry guard
`attempt < self.max_validation_attempts - 1` is `1 ≤ fuel - 1`, i.e. `1 ≤ f`
under the `fuel = f + 1` pattern. -/

/-- The generation loop: returns `(rounds produced, last candidate set, last
validation verdict)`, or `none` when `maxAttempts = 0` (the loop body never
ran and `validation` stays `None`). -/
def generateAttempts {α : Type} (strict seeded : Bool) (rounds : ℕ → α) (valid : α → Bool) :
    ℕ → ℕ → Option (ℕ × α × Bool)
  | _, 0 => none
  | attempt, f + 1 =>
      let qs := rounds attempt
      let v := valid qs
      if v || !strict then some (attempt + 1, qs, v)
      else if !seeded && 1 ≤ f then generateAttempts strict seeded rounds valid (attempt + 1) f
      else some (attempt + 1, qs, v)

/-- `QuestionGenerator.generate` after the candidate rounds are abstracted:
run the bounded loop, then raise `RuntimeError` iff a validation result
exists, is invalid, and strict validation is on; otherwise accept the last
candidate set (`Except.ok none` is the degenerate `maxAttempts = 0` case). -/
def generate {α : Type} (maxAttempts : ℕ) (strict seeded : Bool)
    (rounds : ℕ → α) (valid : α → Bool) : Except String (Option α) :=
  match generateAttempts strict seeded rounds valid 0 maxAttempts with
  | none => Except.ok none
  | some (_, qs, v) =>
      if !v && strict then Except.error "Validation failed after retries"
      else Except.ok (some qs)

/-! ### Markdown parser (app/core/parser.py, `MarkdownParser.parse`)

The tokenisation itself is performed by the third-party `markdown_it`
library, which is outside the repository; `parse` is embedded as a function
of the raw text and of the token stream the library produces for it.  A
token keeps exactly the attributes the source reads: its type (with the
heading level standing for the `h1`/`h2`/... tag, and inline content
inlined) and its `map` line range. -/

/-- The markdown-it token types `parser.py` dispatches on. -/
inductive MdTokenType where
  | headingOpen (level : ℕ)
  | headingClose
  | inline (content : String)
  | paragraphOpen
  | paragraphClose
  | bulletListOpen
  | listItemOpen
  | listItemClose
deriving DecidableEq, Repr

/-- A markdown-it token: its type and its optional source line range. -/
structure MdToken where
  type : MdTokenType
  map : Option (ℕ × ℕ)
deriving DecidableEq, Repr

/-- Whether a token type is `heading_open` (the `tokens[i-1].type ==
"heading_open"` test). -/
def isHeadingOpen : MdTokenType → Bool
  | MdTokenType.headingOpen _ => true
  | _ => false

/-- `MarkdownParser._tokens_to_text`: inline content is kept, paragraph and
list-item closes become newlines, everything else contributes nothing. -/
def tokensToText (tokens : List MdToken) : String :=
  String.join (tokens.map (fun t =>
    match t.type with
    | MdTokenType.inline c => c
    | MdTokenType.paragraphClose => "\n"
    | MdTokenType.listItemClose => "\n"
    | _ => ""))

/-- Python `text.split('\n')`: split at every newline, keeping empty pieces. -/
def splitLinesAux : List Char → List Char → List String
  | [], acc => [String.mk acc.reverse]
  | c :: rest, acc =>
      if c = '\n' then String.mk acc.reverse :: splitLinesAux rest []
      else splitLinesAux rest (c :: acc)

/-- `text.split('\n')` on a string. -/
def pySplitLines (s : String) : List String := splitLinesAux s.data []

/-- `MarkdownParser._get_char_pos`: character position of the start of a
0-indexed line (each of the first `min(lineNum, #lines)` lines contributes
its length plus one for the newline). -/
def getCharPos (text : String) (lineNum : ℕ) : ℕ :=
  ((pySplitLines text).take lineNum).foldl (fun pos line => pos + line.length + 1) 0

/-- The running state of the `MarkdownParser.parse` token loop. -/
structure ParserState where
  title : Option String
  sections : List ParsedSection
  currentHeading : Option String
  currentLevel : Option ℕ
  contentTokens : List MdToken
  headingStartPos : ℕ
deriving Repr

/-- One iteration of the `MarkdownParser.parse` token loop (`prev` is
`tokens[i-1]`, if any). -/
def parserStep (text : String) (st : ParserState) (prev : Option MdToken)
    (tok : MdToken) : ParserState :=
  match tok.type with
  | MdTokenType.headingOpen lvl =>
      let st1 :=
        match st.currentHeading with
        | some h =>
            let content := pyStrip (tokensToText st.contentTokens)
            let endLine := match tok.map with | some m => m.1 | none => text.length
            { st with
                sections := st.sections ++
                  [ParsedSection.mk h content (st.currentLevel.getD 0) st.headingStartPos
                    (getCharPos text endLine)],
                contentTokens := [] }
        | none => st
      { st1 with
          currentLevel := some lvl,
          headingStartPos := match tok.map with | some m => getCharPos text m.1 | none => 0 }
  | MdTokenType.inline c =>
      if (match prev with | some p => isHeadingOpen p.type | none => false) then
        if st.currentLevel = some 1 && st.title.isNone then
          { st with title := some c, currentHeading := none }
        else { st with currentHeading := some c }
      else if st.currentHeading.isSome then
        { st with contentTokens := st.contentTokens ++ [tok] }
      else st
  | MdTokenType.headingClose => st
  | _ =>
      if st.currentHeading.isSome then
        { st with contentTokens := st.contentTokens ++ [tok] }
      else st

/-- The `for i, token in enumerate(tokens)` loop. -/
def parseLoop (text : String) : List MdToken → Option MdToken → ParserState → ParserState
  | [], _, st => st
  | tok :: rest, prev, st => parseLoop text rest (some tok) (parserStep text st prev tok)

/-- `MarkdownParser.parse`, as a function of the raw text and of the token
stream `markdown_it` produces for it.  Empty or whitespace-only input yields
the empty document; otherwise the token loop runs and a final open section is
flushed with `end_pos = len(text)`. -/
def parseMarkdown (text : String) (tokens : List MdToken) : ParsedDocument :=
  if pyStrip text = "" then ⟨none, [], text⟩
  else
    let st := parseLoop text tokens none ⟨none, [], none, none, [], 0⟩
    let sections :=
      match st.currentHeading with
      | some h => st.sections ++
          [⟨h, pyStrip (tokensToText st.contentTokens), st.currentLevel.getD 0,
            st.headingStartPos, text.length⟩]
      | none => st.sections
    ⟨st.title, sections, text⟩

/-! ### Helper lemmas -/

theorem pySorted_eq_iff_perm {l₁ l₂ : List ℤ} :
    pySorted l₁ = pySorted l₂ ↔ l₁.Perm l₂ := by
  unfold pySorted
  constructor
  · intro h
    have p1 := List.mergeSort_perm l₁ (fun a b => a ≤ b)
    have p2 := List.mergeSort_perm l₂ (fun a b => a ≤ b)
    rw [← h] at p2
    exact p1.symm.trans p2
  · intro h
    exact List.eq_of_perm_of_sorted
      ((List.mergeSort_perm l₁ _).trans (h.trans (List.mergeSort_perm l₂ _).symm))
      (List.sorted_mergeSort' l₁) (List.sorted_mergeSort' l₂)

theorem clamp01_le_one (x : ℚ) : max 0 (min 1 x) ≤ 1 :=
  max_le (by norm_num) (min_le_left _ _)

theorem clamp01_mono {x y : ℚ} (h : x ≤ y) : max 0 (min 1 x) ≤ max 0 (min 1 y) :=
  max_le_max le_rfl (min_le_min le_rfl h)

theorem roundHalfEven_intCast (z : ℤ) : roundHalfEven (z : ℚ) = z := by
  simp [roundHalfEven]

theorem pyRound_zero (n : ℕ) : pyRound n 0 = 0 := by
  have h : (0 : ℚ) * (10 : ℚ) ^ n = ((0 : ℤ) : ℚ) := by norm_num
  rw [pyRound, h, roundHalfEven_intCast]
  norm_num

theorem pyRound_one (n : ℕ) : pyRound n 1 = 1 := by
  have h : (1 : ℚ) * (10 : ℚ) ^ n = (((10 : ℤ) ^ n : ℤ) : ℚ) := by push_cast; ring
  rw [pyRound, h, roundHalfEven_intCast]
  push_cast
  exact div_self (by positivity)

/-- `calculate_partial_credit` is the clamped signed formula, also in the
degenerate `|expected| = 0` case (where division by zero yields 0 in `ℚ`). -/
theorem calculatePartialCredit_eq (expected given : List ℤ) :
    calculatePartialCredit expected given =
      max 0 (min 1 ((((expected.toFinset ∩ given.toFinset).card : ℚ) -
        ((given.toFinset \ expected.toFinset).card : ℚ)) / (expected.toFinset.card : ℚ))) := by
  unfold calculatePartialCredit
  by_cases h : expected.toFinset.card = 0
  · rw [if_pos h, h]
    norm_num
  · rw [if_neg h]

theorem calculatePartialCredit_le_one (expected given : List ℤ) :
    calculatePartialCredit expected given ≤ 1 := by
  rw [calculatePartialCredit_eq]
  exact clamp01_le_one _

theorem multipleChoiceCredit_le_one (expected given : List ℤ) (usePC : Bool) :
    multipleChoiceCredit expected given usePC ≤ 1 := by
  unfold multipleChoiceCredit
  split
  · exact le_rfl
  · split
    · exact calculatePartialCredit_le_one _ _
    · norm_num

theorem multipleChoiceCredit_of_eq {expected given : List ℤ}
    (h : pySorted expected = pySorted given) (usePC : Bool) :
    multipleChoiceCredit expected given usePC = 1 := by
  rw [multipleChoiceCredit, if_pos h]

theorem multipleChoiceCredit_of_ne {expected given : List ℤ}
    (h : pySorted expected ≠ pySorted given) :
    multipleChoiceCredit expected given true = calculatePartialCredit expected given := by
  rw [multipleChoiceCredit, if_neg h, if_pos rfl]

theorem toFinset_append_singleton (given : List ℤ) (e : ℤ) :
    (given ++ [e]).toFinset = insert e given.toFinset := by
  ext x
  simp [or_comm]

/-! ### Concrete sample data for witnesses and counterexamples -/

/-- A schema-valid single-choice question (`correct` has exactly one index). -/
def sampleSingleChoice : Question :=
  ⟨"q1", QuestionType.singleChoice, "Pick the even number",
    some ["1", "2", "3"], some [1], none, none, [], ⟨"medium", []⟩⟩

/-- A schema-valid multiple-choice question. -/
def sampleMultipleChoice : Question :=
  ⟨"q2", QuestionType.multipleChoice, "Select all even numbers",
    some ["0", "1", "2"], some [0, 2], none, none, [], ⟨"medium", []⟩⟩

/-- A resolved configuration for the sample exam. -/
def sampleConfig : ExamConfig := ⟨1, 1, 0, 2, 1/2, 1/2, 0, "mixed", "en", none⟩

/-- A two-question exam over the sample questions. -/
def sampleExam : Exam := ⟨"exam1", [sampleSingleChoice, sampleMultipleChoice], sampleConfig⟩

/-- A grading capability that always fails. -/
def failingCap : OpenEndedCap := fun _ _ _ _ _ => Except.error "capability down"

/-! ### Claim theorems -/

/-- C9: for every multiple-choice question graded with partial credit
enabled, appending to `given` one more expected index not yet selected never
decreases the awarded credit, and appending one more index outside `expected`
never increases it — including across the transition into or out of the
full-match branch that awards 1.0. -/
theorem multiple_choice_credit_monotone (expected given : List ℤ) (e : ℤ) :
    (e ∈ expected → e ∉ given →
      multipleChoiceCredit expected given true ≤
        multipleChoiceCredit expected (given ++ [e]) true) ∧
    (e ∉ expected →
      multipleChoiceCredit expected (given ++ [e]) true ≤
        multipleChoiceCredit expected given true) := by
  constructor
  · intro he hg
    by_cases hfull' : pySorted expected = pySorted (given ++ [e])
    · rw [multipleChoiceCredit_of_eq hfull']
      exact multipleChoiceCredit_le_one _ _ _
    · by_cases hfull : pySorted expected = pySorted given
      · exact absurd ((pySorted_eq_iff_perm.mp hfull).mem_iff.mp he) hg
      · rw [multipleChoiceCredit_of_ne hfull, multipleChoiceCredit_of_ne hfull',
          calculatePartialCredit_eq, calculatePartialCredit_eq]
        apply clamp01_mono
        have heF : e ∈ expected.toFinset := List.mem_toFinset.mpr he
        have hgF : e ∉ given.toFinset := fun hmem => hg (List.mem_toFinset.mp hmem)
        have htotpos : 0 < expected.toFinset.card := Finset.card_pos.mpr ⟨e, heF⟩
        rw [toFinset_append_singleton, Finset.inter_insert_of_mem heF,
          Finset.insert_sdiff_of_mem _ heF,
          Finset.card_insert_of_not_mem (fun hmem => hgF (Finset.mem_inter.mp hmem).2)]
        apply (div_le_div_iff_of_pos_right (by exact_mod_cast htotpos)).mpr
        push_cast
        linarith
  · intro he
    by_cases hfull : pySorted expected = pySorted given
    · calc multipleChoiceCredit expected (given ++ [e]) true ≤ 1 :=
            multipleChoiceCredit_le_one _ _ _
        _ = multipleChoiceCredit expected given true :=
            (multipleChoiceCredit_of_eq hfull true).symm
    · by_cases hfull' : pySorted expected = pySorted (given ++ [e])
      · exact absurd ((pySorted_eq_iff_perm.mp hfull').mem_iff.mpr (by simp)) he
      · rw [multipleChoiceCredit_of_ne hfull, multipleChoiceCredit_of_ne hfull',
          calculatePartialCredit_eq, calculatePartialCredit_eq]
        have heF : e ∉ expected.toFinset := fun hmem => he (List.mem_toFinset.mp hmem)
        by_cases hgF : e ∈ given.toFinset
        · rw [toFinset_append_singleton, Finset.insert_eq_self.mpr hgF]
        · rw [toFinset_append_singleton, Finset.inter_insert_of_not_mem heF,
            Finset.insert_sdiff_of_not_mem _ heF,
            Finset.card_insert_of_not_mem (fun hmem => hgF (Finset.mem_sdiff.mp hmem).1)]
          apply clamp01_mono
          by_cases ht : expected.toFinset.card = 0
          · rw [ht]
            norm_num
          · apply (div_le_div_iff_of_pos_right (by positivity)).mpr
            push_cast
            linarith

/-- Witness for C9: both directions applied at `expected = [0, 2, 4]`,
`given = [0]`, adding the correct index `2` and the incorrect index `5`. -/
theorem multiple_choice_credit_monotone_witness :
    multipleChoiceCredit [0, 2, 4] [0] true ≤
      multipleChoiceCredit [0, 2, 4] ([0] ++ [2]) true ∧
    multipleChoiceCredit [0, 2, 4] ([0] ++ [5]) true ≤
      multipleChoiceCredit [0, 2, 4] [0] true :=
  ⟨(multiple_choice_credit_monotone [0, 2, 4] [0] 2).1 (by decide) (by decide),
    (multiple_choice_credit_monotone [0, 2, 4] [0] 5).2 (by decide)⟩

/-- C1: multiple-choice grading with partial credit enabled awards 1.0 on a
full match (sorted given equals sorted expected) and on every non-full-match
exactly the clamped signed set formula, 0.0 when `expected` is empty; the
three scenario inputs evaluate to 2/3, 1/3 and 0; with partial credit
disabled any non-exact match scores 0.0 and is marked incorrect. -/
theorem multiple_choice_grading_spec (expected given : List ℤ) :
    (pySorted expected = pySorted given → multipleChoiceCredit expected given true = 1) ∧
    (pySorted expected ≠ pySorted given →
      multipleChoiceCredit expected given true =
        max 0 (min 1 ((((expected.toFinset ∩ given.toFinset).card : ℚ) -
          ((given.toFinset \ expected.toFinset).card : ℚ)) / (expected.toFinset.card : ℚ)))) ∧
    (expected = [] → pySorted expected ≠ pySorted given →
      multipleChoiceCredit expected given true = 0) ∧
    multipleChoiceCredit [0, 2, 4] [0, 2] true = 2/3 ∧
    multipleChoiceCredit [0, 2, 4] [0, 1, 2] true = 1/3 ∧
    multipleChoiceCredit [0, 2, 4] [1, 3, 5] true = 0 ∧
    (∀ q : Question, q.type = QuestionType.multipleChoice → q.correct = some expected →
      pySorted expected ≠ pySorted given →
      gradeChoiceQuestion q (some given) false =
        Except.ok ⟨q.id, false, some expected, some given, none, 0, none, none, none⟩) := by
  have hne024_02 : pySorted [0, 2, 4] ≠ pySorted [0, 2] :=
    fun h => absurd (pySorted_eq_iff_perm.mp h) (by decide)
  have hne024_012 : pySorted [0, 2, 4] ≠ pySorted [0, 1, 2] :=
    fun h => absurd (pySorted_eq_iff_perm.mp h) (by decide)
  have hne024_135 : pySorted [0, 2, 4] ≠ pySorted [1, 3, 5] :=
    fun h => absurd (pySorted_eq_iff_perm.mp h) (by decide)
  refine ⟨fun h => multipleChoiceCredit_of_eq h true, ?_, ?_, ?_, ?_, ?_, ?_⟩
  · intro hne
    rw [multipleChoiceCredit_of_ne hne, calculatePartialCredit_eq]
  · intro hemp hne
    subst hemp
    rw [multipleChoiceCredit_of_ne hne]
    rfl
  · rw [multipleChoiceCredit_of_ne hne024_02, calculatePartialCredit_eq,
      show ((([0, 2, 4] : List ℤ).toFinset ∩ ([0, 2] : List ℤ).toFinset).card = 2) from rfl,
      show ((([0, 2] : List ℤ).toFinset \ ([0, 2, 4] : List ℤ).toFinset).card = 0) from rfl,
      show (([0, 2, 4] : List ℤ).toFinset.card = 3) from rfl]
    rw [min_eq_right (by norm_num), max_eq_right (by norm_num)]
    norm_num
  · rw [multipleChoiceCredit_of_ne hne024_012, calculatePartialCredit_eq,
      show ((([0, 2, 4] : List ℤ).toFinset ∩ ([0, 1, 2] : List ℤ).toFinset).card = 2) from rfl,
      show ((([0, 1, 2] : List ℤ).toFinset \ ([0, 2, 4] : List ℤ).toFinset).card = 1) from rfl,
      show (([0, 2, 4] : List ℤ).toFinset.card = 3) from rfl]
    rw [min_eq_right (by norm_num), max_eq_right (by norm_num)]
    norm_num
  · rw [multipleChoiceCredit_of_ne hne024_135, calculatePartialCredit_eq,
      show ((([0, 2, 4] : List ℤ).toFinset ∩ ([1, 3, 5] : List ℤ).toFinset).card = 0) from rfl,
      show ((([1, 3, 5] : List ℤ).toFinset \ ([0, 2, 4] : List ℤ).toFinset).card = 3) from rfl,
      show (([0, 2, 4] : List ℤ).toFinset.card = 3) from rfl]
    rw [max_eq_left]
    apply min_le_of_right_le
    norm_num
  · intro q hq hcorr hne
    have hc : multipleChoiceCredit expected given false = 0 := by
      rw [multipleChoiceCredit, if_neg hne]
      rfl
    simp [gradeChoiceQuestion, hq, hcorr, hc, pyRound_zero, hne]

/-- Witness for C1: the full-match conjunct applied at `expected = [1, 2]`,
`given = [2, 1]`, the non-full-match formula conjunct applied at
`expected = [0, 2, 4]`, `given = [0, 2]`, and the disabled-partial-credit
conjunct applied to the sample multiple-choice question at
`expected = [0, 2]`, `given = [0, 1]`. -/
theorem multiple_choice_grading_spec_witness :
    multipleChoiceCredit [1, 2] [2, 1] true = 1 ∧
    multipleChoiceCredit [0, 2, 4] [0, 2] true =
      max 0 (min 1 ((((([0, 2, 4] : List ℤ).toFinset ∩ ([0, 2] : List ℤ).toFinset).card : ℚ) -
        ((([0, 2] : List ℤ).toFinset \ ([0, 2, 4] : List ℤ).toFinset).card : ℚ)) /
          ((([0, 2, 4] : List ℤ).toFinset.card : ℚ))) ) ∧
    gradeChoiceQuestion sampleMultipleChoice (some [0, 1]) false =
      Except.ok ⟨"q2", false, some [0, 2], some [0, 1], none, 0, none, none, none⟩ :=
  ⟨(multiple_choice_grading_spec [1, 2] [2, 1]).1 (pySorted_eq_iff_perm.mpr (by decide)),
    (multiple_choice_grading_spec [0, 2, 4] [0, 2]).2.1
      (fun h => absurd (pySorted_eq_iff_perm.mp h) (by decide)),
    (multiple_choice_grading_spec [0, 2] [0, 1]).2.2.2.2.2.2 sampleMultipleChoice rfl rfl
      (fun h => absurd (pySorted_eq_iff_perm.mp h) (by decide))⟩

/-- C5 counterexample: `expected = [1]` and `given = [1, 1]` are equal as
sets, yet single-choice grading returns `isCorrect = false` with credit 0.0
(not 1.0, as set-equality grading would demand), because the source compares
the raw lists with `==`. -/
theorem single_choice_set_equality_counterexample :
    (([1, 1] : List ℤ).toFinset = ([1] : List ℤ).toFinset) ∧
    gradeChoiceQuestion sampleSingleChoice (some [1, 1]) true =
      Except.ok ⟨"q1", false, some [1], some [1, 1], none, 0, none, none, none⟩ := by
  refine ⟨rfl, ?_⟩
  simp [gradeChoiceQuestion, sampleSingleChoice, pyRound_zero]

/-- C5 (amended): single-choice grading compares `given` to `expected` by
exact list equality (order- and multiplicity-sensitive, `None`-safe) and
awards credit 1.0 when the lists are equal and 0.0 otherwise, regardless of
the partial-credit flag; in particular `expected = [1]`, `given = [1]` always
yields `isCorrect = true` and credit 1.0 even with partial credit disabled. -/
theorem single_choice_list_equality (q : Question) (given : Option (List ℤ))
    (usePC : Bool) (h : q.type = QuestionType.singleChoice) :
    gradeChoiceQuestion q given usePC =
      Except.ok ⟨q.id, decide (given = q.correct), q.correct, given, none,
        if given = q.correct then 1 else 0, none, none, none⟩ := by
  by_cases hc : given = q.correct
  · simp [gradeChoiceQuestion, h, hc, pyRound_one]
  · simp [gradeChoiceQuestion, h, hc, pyRound_zero]

/-- Witness for C5 (amended): the scenario `expected = [1]`, `given = [1]`
with partial credit disabled yields a correct answer with credit 1.0. -/
theorem single_choice_list_equality_witness :
    gradeChoiceQuestion sampleSingleChoice (some [1]) false =
      Except.ok ⟨"q1", true, some [1], some [1], none, 1, none, none, none⟩ := by
  have h := single_choice_list_equality sampleSingleChoice (some [1]) false rfl
  simpa [sampleSingleChoice] using h

/-- C10: a multiple-choice answer submitted with `choice = None` (legal in
`StudentAnswer` when a text answer is present) makes `_grade_choice_question`
raise `TypeError` from `sorted(None)`, and the error propagates out of
`grade`; the same `None` choice on a single-choice question is graded
normally as an incorrect 0.0-credit result — choice grading is not total
over valid `StudentAnswer` values. -/
theorem choice_grading_not_total :
    (∀ (q : Question) (usePC : Bool), q.type = QuestionType.multipleChoice →
      gradeChoiceQuestion q none usePC =
        Except.error "TypeError: NoneType object is not iterable") ∧
    (∀ (q : Question) (usePC : Bool) (ec : List ℤ),
      q.type = QuestionType.singleChoice → q.correct = some ec →
      gradeChoiceQuestion q none usePC =
        Except.ok ⟨q.id, false, some ec, none, none, 0, none, none, none⟩) ∧
    (∀ usePC : Bool,
      grade sampleExam ⟨"exam1", [⟨"q2", none, some "try"⟩]⟩ usePC failingCap =
        Except.error "TypeError: NoneType object is not iterable") ∧
    (∀ usePC : Bool,
      grade sampleExam ⟨"exam1", [⟨"q1", none, some "try"⟩]⟩ usePC failingCap =
        Except.ok ⟨"exam1", ⟨1, 0, 0⟩,
          [⟨"q1", false, some [1], none, none, 0, none, none, none⟩]⟩) := by
  refine ⟨?_, ?_, ?_, ?_⟩
  · intro q usePC hq
    unfold gradeChoiceQuestion
    rw [hq]
    cases q.correct <;> simp
  · intro q usePC ec hq hcorr
    simp [gradeChoiceQuestion, hq, hcorr, pyRound_zero]
  · intro usePC
    rfl
  · intro usePC
    have h0 : gradeChoiceQuestion ⟨"q1", QuestionType.singleChoice, "Pick the even number",
        some ["1", "2", "3"], some [1], none, none, [], ⟨"medium", []⟩⟩ none usePC =
        Except.ok ⟨"q1", false, some [1], none, none, 0, none, none, none⟩ := by
      simp [gradeChoiceQuestion, pyRound_zero]
    simp [grade, gradeAnswer, questionLookup, sampleExam, sampleSingleChoice,
      sampleMultipleChoice, sampleConfig, List.mapM.loop, h0, pyRound_zero]

/-- Witness for C10: both universal parts applied to the sample questions. -/
theorem choice_grading_not_total_witness :
    gradeChoiceQuestion sampleMultipleChoice none true =
      Except.error "TypeError: NoneType object is not iterable" ∧
    gradeChoiceQuestion sampleSingleChoice none true =
      Except.ok ⟨"q1", false, some [1], none, none, 0, none, none, none⟩ :=
  ⟨(choice_grading_not_total).1 sampleMultipleChoice true rfl,
    (choice_grading_not_total).2.1 sampleSingleChoice true [1] rfl rfl⟩

/-- A schema-valid open-ended question with a two-item rubric. -/
def sampleOpenEnded : Question :=
  ⟨"q3", QuestionType.openEnded, "Describe the water cycle", none, none,
    some "Water evaporates and condenses", some ["mentions evaporation", "mentions condensation"],
    [], ⟨"medium", []⟩⟩

/-- A one-question exam over the open-ended sample question. -/
def sampleOpenExam : Exam := ⟨"exam2", [sampleOpenEnded], sampleConfig⟩

/-- If every element maps to `Except.ok`, the `mapM` loop returns `ok` with
one output per input. -/
theorem mapM_loop_ok {α β : Type} (f : α → Except String β) :
    ∀ (l : List α) (acc : List β), (∀ a ∈ l, ∃ r, f a = Except.ok r) →
      ∃ rs, List.mapM.loop f l acc = Except.ok rs ∧ rs.length = acc.length + l.length := by
  intro l
  induction l with
  | nil =>
      intro acc h
      exact ⟨acc.reverse, rfl, by simp⟩
  | cons a t ih =>
      intro acc h
      obtain ⟨r, hr⟩ := h a (List.mem_cons_self a t)
      obtain ⟨rs, hrs, hlen⟩ := ih (r :: acc) (fun x hx => h x (List.mem_cons_of_mem a hx))
      refine ⟨rs, ?_, by simp at hlen ⊢; omega⟩
      simp only [List.mapM.loop, hr]
      exact hrs

/-- C7: for every open-ended question whose submitted text answer is absent or
empty, grading returns credit 0.0, `isCorrect = false`, the fixed feedback
"No answer provided." and an all-zero rubric score list, and the external
grading capability is never consulted (the result does not depend on it). -/
theorem open_ended_no_answer (q : Question) (sa : StudentAnswer)
    (cap cap' : OpenEndedCap) (lang lang' : String)
    (h : sa.textAnswer = none ∨ sa.textAnswer = some "") :
    gradeOpenEndedQuestion q sa cap lang =
      ⟨q.id, false, none, none, some "", 0, some "No answer provided.",
        some (List.replicate (q.rubric.getD []).length 0), some ⟨0, 0, 0⟩⟩ ∧
    gradeOpenEndedQuestion q sa cap lang = gradeOpenEndedQuestion q sa cap' lang' := by
  have key : ∀ (c : OpenEndedCap) (l : String), gradeOpenEndedQuestion q sa c l =
      ⟨q.id, false, none, none, some "", 0, some "No answer provided.",
        some (List.replicate (q.rubric.getD []).length 0), some ⟨0, 0, 0⟩⟩ := by
    intro c l
    rcases h with h | h <;> simp [gradeOpenEndedQuestion, h, noAnswerResult]
  exact ⟨key cap lang, (key cap lang).trans (key cap' lang').symm⟩

/-- Witness for C7: the open-ended sample question with an empty submitted
text, graded against the failing capability. -/
theorem open_ended_no_answer_witness :
    gradeOpenEndedQuestion sampleOpenEnded ⟨"q3", some [0], some ""⟩ failingCap "en" =
      ⟨"q3", false, none, none, some "", 0, some "No answer provided.",
        some (List.replicate 2 0), some ⟨0, 0, 0⟩⟩ := by
  have h := open_ended_no_answer sampleOpenEnded ⟨"q3", some [0], some ""⟩ failingCap failingCap
    "en" "en" (Or.inr rfl)
  simpa [sampleOpenEnded] using h.1

/-- C6: for every open-ended answer with a non-empty text, a failure of the
external grading capability is caught locally: the grader returns a
0.0-credit incorrect `QuestionResult` whose feedback carries the failure
text, and `grade` still returns exactly one result per submitted answer. -/
theorem open_ended_failure_fallback :
    (∀ (q : Question) (sa : StudentAnswer) (cap : OpenEndedCap) (lang t msg : String),
      sa.textAnswer = some t → t ≠ "" →
      cap q.stem q.referenceAnswer q.rubric t lang = Except.error msg →
      gradeOpenEndedQuestion q sa cap lang =
        ⟨q.id, false, none, none, some t, 0, some ("Grading failed: " ++ msg),
          some (List.replicate (q.rubric.getD []).length 0),
          some ⟨0, 0, (wordCount t : ℚ)⟩⟩) ∧
    (∀ (exam : Exam) (request : GradeRequest) (usePC : Bool) (cap : OpenEndedCap),
      request.answers ≠ [] →
      (∀ sa ∈ request.answers, ∃ q, questionLookup exam sa.questionId = some q ∧
        q.type = QuestionType.openEnded) →
      ∃ resp, grade exam request usePC cap = Except.ok resp ∧
        resp.perQuestion.length = request.answers.length) := by
  constructor
  · intro q sa cap lang t msg hsome ht hcap
    simp [gradeOpenEndedQuestion, hsome, ht, hcap]
  · intro exam request usePC cap hne hall
    have hc1 : ¬(request.answers.isEmpty = true) := by
      simpa using hne
    have hc2 : ¬(request.answers.any
        (fun sa => (questionLookup exam sa.questionId).isNone) = true) := by
      intro hcontra
      obtain ⟨sa, hsa, hnone⟩ := List.any_eq_true.mp hcontra
      obtain ⟨q, hq, _⟩ := hall sa hsa
      rw [hq] at hnone
      simp at hnone
    have hsteps : ∀ sa ∈ request.answers, ∃ r,
        gradeAnswer exam cap usePC exam.configUsed.language sa = Except.ok r := by
      intro sa hsa
      obtain ⟨q, hq, htype⟩ := hall sa hsa
      exact ⟨gradeOpenEndedQuestion q sa cap exam.configUsed.language,
        by simp [gradeAnswer, hq, htype]⟩
    obtain ⟨rs, hrs, hlen⟩ :=
      mapM_loop_ok (gradeAnswer exam cap usePC exam.configUsed.language)
        request.answers [] hsteps
    rw [grade, if_neg hc1, if_neg hc2]
    have hmapM : request.answers.mapM (gradeAnswer exam cap usePC exam.configUsed.language) =
        Except.ok rs := hrs
    dsimp only
    rw [hmapM]
    refine ⟨_, rfl, ?_⟩
    simpa using hlen

/-- Witness for C6: the sample open-ended question graded with a failing
capability yields the zero-credit fallback, and grading the one-answer
request still produces one result. -/
theorem open_ended_failure_fallback_witness :
    gradeOpenEndedQuestion sampleOpenEnded ⟨"q3", none, some "water evaporates"⟩ failingCap "en" =
      ⟨"q3", false, none, none, some "water evaporates", 0,
        some "Grading failed: capability down", some (List.replicate 2 0), some ⟨0, 0, 2⟩⟩ ∧
    (∃ resp, grade sampleOpenExam ⟨"exam2", [⟨"q3", none, some "water evaporates"⟩]⟩
        true failingCap = Except.ok resp ∧ resp.perQuestion.length = 1) := by
  constructor
  · have h := (open_ended_failure_fallback).1 sampleOpenEnded
      ⟨"q3", none, some "water evaporates"⟩ failingCap "en" "water evaporates"
      "capability down" rfl (by decide) rfl
    simpa [sampleOpenEnded] using h
  · have h := (open_ended_failure_fallback).2 sampleOpenExam
      ⟨"exam2", [⟨"q3", none, some "water evaporates"⟩]⟩ true failingCap
      (by simp) ?_
    · simpa using h
    · intro sa hsa
      rw [List.mem_singleton] at hsa
      subst hsa
      exact ⟨sampleOpenEnded, rfl, rfl⟩

theorem generateAttempts_stop {α : Type} (strict seeded : Bool) (rounds : ℕ → α)
    (valid : α → Bool) (attempt f : ℕ)
    (h : (valid (rounds attempt) || !strict) = true) :
    generateAttempts strict seeded rounds valid attempt (f + 1) =
      some (attempt + 1, rounds attempt, valid (rounds attempt)) := by
  simp only [generateAttempts]
  rw [if_pos h]

theorem generateAttempts_retry {α : Type} (strict seeded : Bool) (rounds : ℕ → α)
    (valid : α → Bool) (attempt f : ℕ)
    (h : ¬((valid (rounds attempt) || !strict) = true))
    (h2 : (!seeded && decide (1 ≤ f)) = true) :
    generateAttempts strict seeded rounds valid attempt (f + 1) =
      generateAttempts strict seeded rounds valid (attempt + 1) f := by
  simp only [generateAttempts]
  rw [if_neg h, if_pos h2]

theorem generateAttempts_last {α : Type} (strict seeded : Bool) (rounds : ℕ → α)
    (valid : α → Bool) (attempt f : ℕ)
    (h : ¬((valid (rounds attempt) || !strict) = true))
    (h2 : ¬((!seeded && decide (1 ≤ f)) = true)) :
    generateAttempts strict seeded rounds valid attempt (f + 1) =
      some (attempt + 1, rounds attempt, valid (rounds attempt)) := by
  simp only [generateAttempts]
  rw [if_neg h, if_neg h2]

/-- Full characterisation of the bounded retry loop, by induction on the
remaining fuel. -/
theorem generateAttempts_spec {α : Type} (strict seeded : Bool) (rounds : ℕ → α)
    (valid : α → Bool) :
    ∀ (fuel attempt : ℕ), 1 ≤ fuel →
      ∃ n, generateAttempts strict seeded rounds valid attempt fuel =
          some (n, rounds (n - 1), valid (rounds (n - 1))) ∧
        attempt + 1 ≤ n ∧ n ≤ attempt + fuel ∧
        (∀ i, attempt ≤ i → i + 1 < n →
          valid (rounds i) = false ∧ strict = true ∧ seeded = false) ∧
        ((valid (rounds attempt) = true ∨ strict = false ∨ seeded = true) →
          n = attempt + 1) ∧
        (valid (rounds (n - 1)) = false ∧ strict = true ∧ seeded = false →
          n = attempt + fuel) := by
  intro fuel
  induction fuel with
  | zero => intro attempt h; exact absurd h (by omega)
  | succ f ih =>
      intro attempt _
      by_cases hstop : (valid (rounds attempt) || !strict) = true
      · refine ⟨attempt + 1, ?_, le_rfl, by omega, fun i hi hlt => absurd hlt (by omega),
          fun _ => rfl, ?_⟩
        · rw [generateAttempts_stop strict seeded rounds valid attempt f hstop]
          simp
        · rintro ⟨hv, hs, -⟩
          simp only [Nat.add_sub_cancel] at hv
          rw [hv, hs] at hstop
          exact absurd hstop (by simp)
      · have hfail : valid (rounds attempt) = false ∧ strict = true := by
          simpa [not_or] using hstop
        by_cases hretry : (!seeded && decide (1 ≤ f)) = true
        · have hseed : seeded = false ∧ 1 ≤ f := by simpa using hretry
          obtain ⟨n, heq, hlow, hhigh, hmid, hstopim, hexh⟩ := ih (attempt + 1) hseed.2
          refine ⟨n, ?_, by omega, by omega, ?_, ?_, ?_⟩
          · rw [generateAttempts_retry strict seeded rounds valid attempt f hstop hretry]
            exact heq
          · intro i hi hlt
            rcases Nat.eq_or_lt_of_le hi with hcase | hcase
            · exact hcase ▸ ⟨hfail.1, hfail.2, hseed.1⟩
            · exact hmid i hcase hlt
          · rintro (hc | hc | hc)
            · exact absurd hc (by rw [hfail.1]; simp)
            · exact absurd hc (by rw [hfail.2]; simp)
            · exact absurd hc (by rw [hseed.1]; simp)
          · intro hc
            rw [hexh hc]
            omega
        · refine ⟨attempt + 1, ?_, le_rfl, by omega, fun i hi hlt => absurd hlt (by omega),
            fun _ => rfl, ?_⟩
          · rw [generateAttempts_last strict seeded rounds valid attempt f hstop hretry]
            simp
          · rintro ⟨-, -, hseedf⟩
            have hf0 : f = 0 := by
              rw [hseedf] at hretry
              simpa using hretry
            omega
/-- C2: at most `maxAttempts` (default 3) candidate rounds are produced; a
valid round, or any round when strict validation is disabled, is accepted
immediately (every non-final round was invalid under strict, unseeded
retrying); with an explicit seed exactly one round is produced; the loop only
exhausts all attempts when strict validation is on, no seed is pinned, and
every round failed; and `generate` fails with the validation error iff strict
validation is enabled and the last round is still invalid, otherwise
returning the last candidate set. -/
theorem generate_retry_loop_spec {α : Type} (maxAttempts : ℕ) (hmax : 1 ≤ maxAttempts)
    (strict seeded : Bool) (rounds : ℕ → α) (valid : α → Bool) :
    ∃ n, generateAttempts strict seeded rounds valid 0 maxAttempts =
        some (n, rounds (n - 1), valid (rounds (n - 1))) ∧
      1 ≤ n ∧ n ≤ maxAttempts ∧
      (∀ i, i + 1 < n → valid (rounds i) = false ∧ strict = true ∧ seeded = false) ∧
      ((valid (rounds 0) = true ∨ strict = false ∨ seeded = true) → n = 1) ∧
      (valid (rounds (n - 1)) = false ∧ strict = true ∧ seeded = false →
        n = maxAttempts) ∧
      ((generate maxAttempts strict seeded rounds valid =
          Except.error "Validation failed after retries") ↔
        (strict = true ∧ valid (rounds (n - 1)) = false)) ∧
      (strict = false ∨ valid (rounds (n - 1)) = true →
        generate maxAttempts strict seeded rounds valid =
          Except.ok (some (rounds (n - 1)))) := by
  obtain ⟨n, heq, hlow, hhigh, hmid, hstopim, hexh⟩ :=
    generateAttempts_spec strict seeded rounds valid maxAttempts 0 hmax
  refine ⟨n, heq, hlow, by omega, fun i hlt => hmid i (Nat.zero_le i) hlt, hstopim,
    by simpa using hexh, ?_, ?_⟩
  · rw [generate, heq]
    dsimp only
    constructor
    · intro herr
      by_cases hcond : (!valid (rounds (n - 1)) && strict) = true
      · simp only [Bool.and_eq_true, Bool.not_eq_true'] at hcond
        exact ⟨hcond.2, hcond.1⟩
      · rw [if_neg hcond] at herr
        exact absurd herr (by simp)
    · rintro ⟨hs, hv⟩
      rw [if_pos (by rw [hs, hv]; rfl)]
  · rintro (hc | hc)
    · rw [generate, heq]
      dsimp only
      rw [if_neg (by rw [hc]; simp)]
    · rw [generate, heq]
      dsimp only
      rw [if_neg (by rw [hc]; simp)]

/-- Witness for C2: three strict, unseeded attempts over an always-failing
validator (the hypothesis `1 ≤ 3` discharged concretely). -/
theorem generate_retry_loop_spec_witness :
    ∃ n, generateAttempts true false (fun i => i) (fun _ => false) 0 3 =
        some (n, n - 1, false) ∧
      1 ≤ n ∧ n ≤ 3 ∧
      (∀ i, i + 1 < n → false = false ∧ true = true ∧ false = false) ∧
      ((false = true ∨ true = false ∨ false = true) → n = 1) ∧
      (false = false ∧ true = true ∧ false = false → n = 3) ∧
      ((generate 3 true false (fun i => i) (fun _ => false) =
          Except.error "Validation failed after retries") ↔
        (true = true ∧ false = false)) ∧
      (true = false ∨ false = true →
        generate 3 true false (fun i => i) (fun _ => false) =
          Except.ok (some (n - 1))) :=
  generate_retry_loop_spec 3 (by norm_num) true false (fun i => i) (fun _ => false)

/-- Python truncation agrees with the floor on non-negative rationals. -/
theorem pyInt_eq_floor {q : ℚ} (h : 0 ≤ q) : pyInt q = ⌊q⌋ := by
  rw [pyInt, Int.tdiv_eq_ediv (Rat.num_nonneg.mpr h) (by positivity), Rat.floor_def]

theorem pyInt_nonneg {q : ℚ} (h : 0 ≤ q) : 0 ≤ pyInt q := by
  rw [pyInt_eq_floor h]
  exact Int.floor_nonneg.mpr h

theorem two_zpow_add_one (e : ℤ) : (2 : ℚ) ^ (e + 1) = 2 * (2 : ℚ) ^ e := by
  rw [zpow_add_one₀ (by norm_num : (2:ℚ) ≠ 0)]
  ring

theorem flExpUp_spec (k : ℕ) : ∀ (f : ℕ) (q : ℚ) (e : ℤ), k ≤ f →
    (2 : ℚ) ^ (-(k : ℤ)) ≤ q → q < (2 : ℚ) ^ (-(k : ℤ) + 1) →
    flExpUp f q e = e - k := by
  induction k with
  | zero =>
      intro f q e _ hlow _
      simp only [Nat.cast_zero, neg_zero, zpow_zero] at hlow
      cases f with
      | zero => simp [flExpUp]
      | succ f' => rw [flExpUp, if_pos hlow]; simp
  | succ k ih =>
      intro f q e hkf hlow hhigh
      have hcast : (-(k : ℤ)) = (-(↑(k + 1) : ℤ)) + 1 := by push_cast; ring
      have hq1 : ¬(1 ≤ q) := by
        rw [not_le]
        calc q < (2 : ℚ) ^ (-(↑(k + 1) : ℤ) + 1) := hhigh
        _ ≤ (2 : ℚ) ^ (0 : ℤ) := by
              apply zpow_le_zpow_right₀ (by norm_num)
              omega
        _ = 1 := zpow_zero 2
      obtain ⟨f', rfl⟩ : ∃ f', f = f' + 1 := ⟨f - 1, by omega⟩
      rw [flExpUp, if_neg hq1]
      have h2 : (2 : ℚ) ^ (-(k : ℤ)) ≤ 2 * q := by
        rw [hcast, two_zpow_add_one]
        linarith
      have h3 : 2 * q < (2 : ℚ) ^ (-(k : ℤ) + 1) := by
        rw [show (-(k:ℤ) + 1) = (-(↑(k + 1) : ℤ) + 1) + 1 by omega, two_zpow_add_one]
        linarith
      rw [ih f' (2 * q) (e - 1) (by omega) h2 h3]
      push_cast
      ring

theorem flExpDown_spec (k : ℕ) : ∀ (f : ℕ) (q : ℚ) (e : ℤ), k ≤ f →
    (2 : ℚ) ^ (k : ℤ) ≤ q → q < (2 : ℚ) ^ ((k : ℤ) + 1) →
    flExpDown f q e = e + k := by
  induction k with
  | zero =>
      intro f q e _ _ hhigh
      simp only [Nat.cast_zero, zero_add, zpow_one] at hhigh
      cases f with
      | zero => simp [flExpDown]
      | succ f' => rw [flExpDown, if_pos hhigh]; simp
  | succ k ih =>
      intro f q e hkf hlow hhigh
      have hlow' : (2 : ℚ) ^ ((k : ℤ) + 1) ≤ q := by
        rw [show ((k:ℤ) + 1) = ((↑(k + 1) : ℤ)) by push_cast; ring]
        exact hlow
      have hq2 : ¬(q < 2) := by
        rw [not_lt]
        calc (2 : ℚ) = (2 : ℚ) ^ (1 : ℤ) := (zpow_one 2).symm
        _ ≤ (2 : ℚ) ^ ((k : ℤ) + 1) := by
              apply zpow_le_zpow_right₀ (by norm_num)
              omega
        _ ≤ q := hlow'
      obtain ⟨f', rfl⟩ : ∃ f', f = f' + 1 := ⟨f - 1, by omega⟩
      rw [flExpDown, if_neg hq2]
      have h2 : (2 : ℚ) ^ (k : ℤ) ≤ q / 2 := by
        rw [le_div_iff₀ (by norm_num : (0:ℚ) < 2)]
        rw [two_zpow_add_one] at hlow'
        linarith
      have h3 : q / 2 < (2 : ℚ) ^ ((k : ℤ) + 1) := by
        rw [div_lt_iff₀ (by norm_num : (0:ℚ) < 2)]
        have hh : q < (2 : ℚ) ^ (((k : ℤ) + 1) + 1) := by
          rw [show (((k:ℤ) + 1) + 1) = ((↑(k + 1) : ℤ) + 1) by push_cast; ring]
          exact hhigh
        rw [two_zpow_add_one] at hh
        linarith
      rw [ih f' (q / 2) (e + 1) (by omega) h2 h3]
      push_cast
      ring

theorem flExp_eq (q : ℚ) (e : ℤ) (h1 : (2 : ℚ) ^ e ≤ q) (h2 : q < (2 : ℚ) ^ (e + 1))
    (hlo : -1100 ≤ e) (hhi : e ≤ 1100) : flExp q = e := by
  rw [flExp]
  rcases le_or_lt 0 e with he | he
  · have hq1 : ¬(q < 1) := by
      rw [not_lt]
      calc (1 : ℚ) = (2 : ℚ) ^ (0 : ℤ) := (zpow_zero 2).symm
      _ ≤ (2 : ℚ) ^ e := zpow_le_zpow_right₀ (by norm_num) he
      _ ≤ q := h1
    rw [if_neg hq1]
    obtain ⟨k, rfl⟩ : ∃ k : ℕ, e = (k : ℤ) := ⟨e.toNat, (Int.toNat_of_nonneg he).symm⟩
    have hspec := flExpDown_spec k 1100 q 0 (by omega) h1 h2
    omega
  · have hq1 : q < 1 := by
      calc q < (2 : ℚ) ^ (e + 1) := h2
      _ ≤ (2 : ℚ) ^ (0 : ℤ) := zpow_le_zpow_right₀ (by norm_num) (by omega)
      _ = 1 := zpow_zero 2
    rw [if_pos hq1]
    obtain ⟨k, rfl⟩ : ∃ k : ℕ, e = -(k : ℤ) := ⟨(-e).toNat, by omega⟩
    have hspec := flExpUp_spec k 1100 q 0 (by omega) h1 h2
    omega

/-- Evaluation rule for `fl` at a positive rational whose binade is known. -/
theorem fl_eval (q r : ℚ) (e : ℤ) (hq : 0 < q) (h1 : (2 : ℚ) ^ e ≤ q)
    (h2 : q < (2 : ℚ) ^ (e + 1)) (hlo : -1100 ≤ e) (hhi : e ≤ 1100)
    (hr : ((roundHalfEven (q * (2 : ℚ) ^ (52 - e)) : ℤ) : ℚ) * (2 : ℚ) ^ (e - 52) = r) :
    fl q = r := by
  rw [fl, if_neg (ne_of_gt hq), abs_of_pos hq, flExp_eq q e h1 h2 hlo hhi, hr]

theorem roundHalfEven_nonneg {q : ℚ} (h : 0 ≤ q) : 0 ≤ roundHalfEven q := by
  have hf : 0 ≤ ⌊q⌋ := Int.floor_nonneg.mpr h
  rw [roundHalfEven]
  split_ifs <;> omega

theorem fl_nonneg {q : ℚ} (h : 0 ≤ q) : 0 ≤ fl q := by
  rw [fl]
  split_ifs with h0
  · exact le_rfl
  · refine mul_nonneg ?_ (zpow_pos (by norm_num : (0:ℚ) < 2) _).le
    exact_mod_cast roundHalfEven_nonneg
      (mul_nonneg h (zpow_pos (by norm_num : (0:ℚ) < 2) _).le)

/-- C4 (amended): every successfully constructed `ExamConfig` satisfies
`single + multiple + open = totalQuestions` with `totalQuestions ∈ [1, 100]`
and `single, multiple ≥ 0`; with no counts given, construction fails unless
the float-computed ratio sum passes the 0.01 tolerance check; in count mode
all counts are non-negative and the stored ratios are the counts divided by
the total (each division rounded to a double); in ratio mode the input
ratios are stored unchanged and are only guaranteed to pass that same float
tolerance check — `openEndedCount`, the total minus the two truncated float
products, is assigned without re-validation and can resolve to -1. -/
theorem exam_config_sync_invariants
    (scc mcc oec : Option ℕ) (tq : ℕ) (sr mr orr : ℚ)
    (difficulty language : String) (seed : Option ℤ)
    (htq1 : 1 ≤ tq) (htq2 : tq ≤ 100)
    (hsr : 0 ≤ sr) (hmr : 0 ≤ mr) (_hor : 0 ≤ orr) :
    (scc = none → mcc = none → oec = none →
      |fl (fl (fl (sr + mr) + orr) - 1)| > d01 →
      syncCountsAndRatios scc mcc oec tq sr mr orr difficulty language seed =
        Except.error "Ratios must sum to 1.0") ∧
    (∀ c, syncCountsAndRatios scc mcc oec tq sr mr orr difficulty language seed =
        Except.ok c →
      c.singleChoiceCount + c.multipleChoiceCount + c.openEndedCount =
        (c.totalQuestions : ℤ) ∧
      1 ≤ c.totalQuestions ∧ c.totalQuestions ≤ 100 ∧
      0 ≤ c.singleChoiceCount ∧ 0 ≤ c.multipleChoiceCount ∧
      ((scc.isSome ∨ mcc.isSome ∨ oec.isSome) →
        0 ≤ c.openEndedCount ∧
        c.singleChoiceRatio = fl ((c.singleChoiceCount : ℚ) / (c.totalQuestions : ℚ)) ∧
        c.multipleChoiceRatio = fl ((c.multipleChoiceCount : ℚ) / (c.totalQuestions : ℚ)) ∧
        c.openEndedRatio = fl ((c.openEndedCount : ℚ) / (c.totalQuestions : ℚ))) ∧
      (scc = none → mcc = none → oec = none →
        c.singleChoiceRatio = sr ∧ c.multipleChoiceRatio = mr ∧
        c.openEndedRatio = orr ∧
        ¬(|fl (fl (fl (sr + mr) + orr) - 1)| > d01))) := by
  constructor
  · intro h1 h2 h3 htol
    have hmode : ¬((scc.isSome || mcc.isSome || oec.isSome) = true) := by
      simp [h1, h2, h3]
    rw [syncCountsAndRatios]
    dsimp only
    rw [if_neg hmode, if_pos htol]
  · intro c hc
    rw [syncCountsAndRatios] at hc
    dsimp only at hc
    by_cases hmode : (scc.isSome || mcc.isSome || oec.isSome) = true
    · rw [if_pos hmode] at hc
      by_cases h0 : scc.getD 0 + mcc.getD 0 + oec.getD 0 = 0
      · rw [if_pos h0] at hc
        exact absurd hc (by simp)
      · rw [if_neg h0] at hc
        by_cases h100 : scc.getD 0 + mcc.getD 0 + oec.getD 0 > 100
        · rw [if_pos h100] at hc
          exact absurd hc (by simp)
        · rw [if_neg h100] at hc
          injection hc with hc'
          subst hc'
          dsimp only
          refine ⟨by push_cast; ring, Nat.pos_of_ne_zero h0, by omega,
            Int.natCast_nonneg _, Int.natCast_nonneg _, ?_, ?_⟩
          · intro _
            refine ⟨Int.natCast_nonneg _, ?_, ?_, ?_⟩ <;>
              · refine congrArg fl ?_
                push_cast
                ring
          · intro h1 h2 h3
            rw [h1, h2, h3] at hmode
            exact absurd hmode (by simp)
    · rw [if_neg hmode] at hc
      by_cases htol : |fl (fl (fl (sr + mr) + orr) - 1)| > d01
      · rw [if_pos htol] at hc
        exact absurd hc (by simp)
      · rw [if_neg htol] at hc
        injection hc with hc'
        subst hc'
        dsimp only
        have hsc0 : (0 : ℤ) ≤ pyInt (fl ((tq : ℚ) * sr)) :=
          pyInt_nonneg (fl_nonneg (mul_nonneg (Nat.cast_nonneg tq) hsr))
        have hmc0 : (0 : ℤ) ≤ pyInt (fl ((tq : ℚ) * mr)) :=
          pyInt_nonneg (fl_nonneg (mul_nonneg (Nat.cast_nonneg tq) hmr))
        refine ⟨by ring, htq1, htq2, hsc0, hmc0, ?_, ?_⟩
        · intro h
          rcases h with h | h | h <;>
            · rw [Bool.or_eq_true, Bool.or_eq_true] at hmode
              exact absurd (by tauto) hmode
        · intro _ _ _
          exact ⟨rfl, rfl, rfl, htol⟩

/-- Witness for C4 (amended): an explicit count-mode construction
`(single, multiple, open) = (2, 1, 1)` satisfying every invariant. -/
theorem exam_config_sync_invariants_witness :
    ∃ c, syncCountsAndRatios (some 2) (some 1) (some 1) 20 (1/2) (3/10) (1/5)
        "mixed" "en" none = Except.ok c ∧
      c.singleChoiceCount + c.multipleChoiceCount + c.openEndedCount =
        (c.totalQuestions : ℤ) ∧
      1 ≤ c.totalQuestions ∧ c.totalQuestions ≤ 100 ∧
      0 ≤ c.singleChoiceCount ∧ 0 ≤ c.multipleChoiceCount ∧
      0 ≤ c.openEndedCount ∧
      c.singleChoiceRatio = fl ((c.singleChoiceCount : ℚ) / (c.totalQuestions : ℚ)) ∧
      c.multipleChoiceRatio = fl ((c.multipleChoiceCount : ℚ) / (c.totalQuestions : ℚ)) ∧
      c.openEndedRatio = fl ((c.openEndedCount : ℚ) / (c.totalQuestions : ℚ)) := by
  obtain ⟨c, hc⟩ : ∃ c, syncCountsAndRatios (some 2) (some 1) (some 1) 20 (1/2) (3/10)
      (1/5) "mixed" "en" none = Except.ok c := ⟨_, rfl⟩
  obtain ⟨h1, h2, h3, h4, h5, hsome, -⟩ :=
    (exam_config_sync_invariants (some 2) (some 1) (some 1) 20 (1/2) (3/10) (1/5)
      "mixed" "en" none (by norm_num) (by norm_num) (by norm_num) (by norm_num)
      (by norm_num)).2 c hc
  obtain ⟨h6, h7, h8, h9⟩ := hsome (Or.inl (by decide))
  exact ⟨c, hc, h1, h2, h3, h4, h5, h6, h7, h8, h9⟩

/-- C4 counterexample: two ratio-mode inputs that construct successfully but
violate the claim.  With ratios `(0.505, 0.5, 0.0)` (float sum 1.005, inside
the 0.01 tolerance) the stored ratios sum to `201/200`, not 1.0 within
floating tolerance.  With the doubles `0.33999999999999997`
(`3062447746611937 * 2^-53`) and `0.6699999999999999`
(`377176468792279 * 2^-49`) at `totalQuestions = 100`, the float ratio sum
is `1.0099999999999998`, which passes the tolerance check, yet both float
products `100 * ratio` round up to the exact integers 34.0 and 67.0, so
`int()` truncation yields counts 34 and 67 and the resolved `openEndedCount`
is `100 - 34 - 67 = -1` — the counts are not all non-negative. -/
theorem exam_config_sync_counterexample :
    (∃ c, syncCountsAndRatios none none none 10 (101/200) (1/2) 0 "mixed" "en" none =
        Except.ok c ∧
      c.singleChoiceRatio + c.multipleChoiceRatio + c.openEndedRatio = 201/200 ∧
      |(201 : ℚ)/200 - 1| = 1/200 ∧ (201 : ℚ)/200 ≠ 1) ∧
    (∃ c, syncCountsAndRatios none none none 100 (3062447746611937/9007199254740992)
        (377176468792279/562949953421312) 0 "mixed" "en" none = Except.ok c ∧
      c.openEndedCount = -1 ∧
      0 ≤ (3062447746611937 : ℚ)/9007199254740992 ∧
      (3062447746611937 : ℚ)/9007199254740992 ≤ 1 ∧
      0 ≤ (377176468792279 : ℚ)/562949953421312 ∧
      (377176468792279 : ℚ)/562949953421312 ≤ 1) := by
  constructor
  · have hf1 : fl ((101:ℚ)/200 + 1/2) = 1131529406376837/1125899906842624 := by
      apply fl_eval _ _ 0 (by norm_num) (by norm_num) (by norm_num) (by norm_num)
        (by norm_num)
      norm_num [roundHalfEven]
    have hf2 : fl ((1131529406376837:ℚ)/1125899906842624 + 0) =
        1131529406376837/1125899906842624 := by
      apply fl_eval _ _ 0 (by norm_num) (by norm_num) (by norm_num) (by norm_num)
        (by norm_num)
      norm_num [roundHalfEven]
    have hf3 : fl ((1131529406376837:ℚ)/1125899906842624 - 1) =
        5629499534213/1125899906842624 := by
      apply fl_eval _ _ (-8) (by norm_num) (by norm_num) (by norm_num) (by norm_num)
        (by norm_num)
      norm_num [roundHalfEven]
    have habs1 : ¬(|fl (fl (fl ((101:ℚ)/200 + 1/2) + 0) - 1)| > d01) := by
      rw [hf1, hf2, hf3, abs_of_nonneg (by norm_num), d01]
      norm_num
    have h5a : pyInt (fl (((10 : ℕ) : ℚ) * (101/200))) = 5 := by
      have hfp : fl (((10 : ℕ) : ℚ) * (101/200)) = 5685794529555251/1125899906842624 := by
        apply fl_eval _ _ 2 (by norm_num) (by norm_num) (by norm_num) (by norm_num)
          (by norm_num)
        norm_num [roundHalfEven]
      rw [hfp, pyInt_eq_floor (by norm_num)]
      exact Int.floor_eq_iff.mpr ⟨by norm_num, by norm_num⟩
    have h5b : pyInt (fl (((10 : ℕ) : ℚ) * (1/2))) = 5 := by
      have hfp : fl (((10 : ℕ) : ℚ) * (1/2)) = 5 := by
        apply fl_eval _ _ 2 (by norm_num) (by norm_num) (by norm_num) (by norm_num)
          (by norm_num)
        norm_num [roundHalfEven]
      rw [hfp, pyInt_eq_floor (by norm_num),
        show (5 : ℚ) = ((5 : ℤ) : ℚ) by norm_num]
      exact Int.floor_intCast 5
    refine ⟨⟨5, 5, 0, 10, 101/200, 1/2, 0, "mixed", "en", none⟩, ?_,
      by norm_num, by norm_num, by norm_num⟩
    rw [syncCountsAndRatios]
    dsimp only
    rw [if_neg (by simp), if_neg habs1, h5a, h5b]
    norm_num
  · have hfs1 : fl ((3062447746611937:ℚ)/9007199254740992 +
        377176468792279/562949953421312) = 568579452955525/562949953421312 := by
      apply fl_eval _ _ 0 (by norm_num) (by norm_num) (by norm_num) (by norm_num)
        (by norm_num)
      norm_num [roundHalfEven]
    have hfs2 : fl ((568579452955525:ℚ)/562949953421312 + 0) =
        568579452955525/562949953421312 := by
      apply fl_eval _ _ 0 (by norm_num) (by norm_num) (by norm_num) (by norm_num)
        (by norm_num)
      norm_num [roundHalfEven]
    have hfs3 : fl ((568579452955525:ℚ)/562949953421312 - 1) =
        5629499534213/562949953421312 := by
      apply fl_eval _ _ (-7) (by norm_num) (by norm_num) (by norm_num) (by norm_num)
        (by norm_num)
      norm_num [roundHalfEven]
    have habs2 : ¬(|fl (fl (fl ((3062447746611937:ℚ)/9007199254740992 +
        377176468792279/562949953421312) + 0) - 1)| > d01) := by
      rw [hfs1, hfs2, hfs3, abs_of_nonneg (by norm_num), d01]
      norm_num
    have h34 : pyInt (fl (((100 : ℕ) : ℚ) * (3062447746611937/9007199254740992))) = 34 := by
      have hfp : fl (((100 : ℕ) : ℚ) * ((3062447746611937:ℚ)/9007199254740992)) = 34 := by
        apply fl_eval _ _ 5 (by norm_num) (by norm_num) (by norm_num) (by norm_num)
          (by norm_num)
        norm_num [roundHalfEven]
      rw [hfp, pyInt_eq_floor (by norm_num),
        show (34 : ℚ) = ((34 : ℤ) : ℚ) by norm_num]
      exact Int.floor_intCast 34
    have h67 : pyInt (fl (((100 : ℕ) : ℚ) * (377176468792279/562949953421312))) = 67 := by
      have hfp : fl (((100 : ℕ) : ℚ) * ((377176468792279:ℚ)/562949953421312)) = 67 := by
        apply fl_eval _ _ 6 (by norm_num) (by norm_num) (by norm_num) (by norm_num)
          (by norm_num)
        norm_num [roundHalfEven]
      rw [hfp, pyInt_eq_floor (by norm_num),
        show (67 : ℚ) = ((67 : ℤ) : ℚ) by norm_num]
      exact Int.floor_intCast 67
    refine ⟨⟨34, 67, -1, 100, 3062447746611937/9007199254740992,
      377176468792279/562949953421312, 0, "mixed", "en", none⟩, ?_, rfl,
      by norm_num, by norm_num, by norm_num, by norm_num⟩
    rw [syncCountsAndRatios]
    dsimp only
    rw [if_neg (by simp), if_neg habs2, h34, h67]
    norm_num

/-! ### Validator loop lemmas -/

theorem ite_append_eq (c : Prop) [Decidable c] (xs : List String) (m : String) :
    (if c then xs ++ [m] else xs) = xs ++ (if c then [m] else []) := by
  split <;> simp

theorem refCheckStep_snd (qid : String) (docLen : ℕ) (acc : List String × Finset String)
    (ref : SourceReference) : (refCheckStep qid docLen acc ref).2 = refHeadingStep acc.2 ref :=
  rfl

theorem refCheckStep_fst (qid : String) (docLen : ℕ) (acc : List String × Finset String)
    (ref : SourceReference) : ∃ t, (refCheckStep qid docLen acc ref).1 = acc.1 ++ t := by
  dsimp only [refCheckStep]
  rw [ite_append_eq, ite_append_eq, List.append_assoc]
  exact ⟨_, rfl⟩

theorem refsFold_spec (qid : String) (docLen : ℕ) :
    ∀ (refs : List SourceReference) (p : List String × Finset String),
      (refs.foldl (refCheckStep qid docLen) p).2 = refs.foldl refHeadingStep p.2 ∧
      ∃ t, (refs.foldl (refCheckStep qid docLen) p).1 = p.1 ++ t := by
  intro refs
  induction refs with
  | nil => exact fun p => ⟨rfl, ⟨[], by simp⟩⟩
  | cons r rs ih =>
      intro p
      obtain ⟨h2, t, h1⟩ := ih (refCheckStep qid docLen p r)
      obtain ⟨t0, h0⟩ := refCheckStep_fst qid docLen p r
      refine ⟨?_, ⟨t0 ++ t, ?_⟩⟩
      · rw [List.foldl_cons, List.foldl_cons, h2, refCheckStep_snd]
      · rw [List.foldl_cons, h1, h0, List.append_assoc]

theorem refsCheck_snd (q : Question) (docLen : ℕ) (issues : List String)
    (refs : Finset String) : (refsCheck q docLen issues refs).2 = questionRefHeadings refs q := by
  unfold refsCheck questionRefHeadings
  split
  · rename_i hemp
    rw [List.isEmpty_iff.mp hemp]
    rfl
  · exact (refsFold_spec q.id docLen q.sourceRefs (issues, refs)).1

theorem refsCheck_fst (q : Question) (docLen : ℕ) (issues : List String)
    (refs : Finset String) : ∃ t, (refsCheck q docLen issues refs).1 = issues ++ t := by
  unfold refsCheck
  split
  · exact ⟨_, rfl⟩
  · exact (refsFold_spec q.id docLen q.sourceRefs (issues, refs)).2

theorem typeCheck_extends (q : Question) (issues issues' : List String)
    (h : typeCheck q issues = Except.ok issues') : ∃ t, issues' = issues ++ t := by
  unfold typeCheck at h
  cases htype : q.type <;> rw [htype] at h <;> dsimp only at h
  case openEnded =>
    rw [ite_append_eq] at h
    split at h <;>
      · injection h with h'
        subst h'
        first
        | exact ⟨_, List.append_assoc _ _ _⟩
        | exact ⟨_, rfl⟩
  all_goals
    rw [ite_append_eq] at h
    cases hcor : q.correct <;> rw [hcor] at h <;> try dsimp only at h
    case none =>
      injection h with h'
      subst h'
      exact ⟨_, List.append_assoc _ _ _⟩
    case some l =>
      cases l with
      | nil =>
          injection h with h'
          subst h'
          exact ⟨_, List.append_assoc _ _ _⟩
      | cons c cs =>
          cases hopt : q.options <;> rw [hopt] at h <;> try dsimp only at h
          case none => exact absurd h (by simp)
          case some opts =>
            split at h <;>
              · injection h with h'
                subst h'
                first
                | exact ⟨_, List.append_assoc _ _ _⟩
                | exact ⟨_, rfl⟩

theorem validateQuestion_spec (docLen : ℕ) (docTerms : Finset String)
    (st st' : ValidatorState) (q : Question)
    (h : validateQuestion docLen docTerms st q = Except.ok st') :
    (∃ t, st'.issues = st.issues ++ t) ∧
    st'.referencedHeadings = questionRefHeadings st.referencedHeadings q ∧
    st'.groundedCount = st.groundedCount +
      (if questionGrounded docTerms q then 1 else 0) ∧
    (questionGrounded docTerms q = false → st'.issues ≠ []) := by
  unfold validateQuestion at h
  rw [ite_append_eq] at h
  dsimp only at h
  obtain ⟨t1, ht1⟩ := refsCheck_fst q docLen
    (st.issues ++ (if q.stem ∈ st.stems then ["Duplicate stem detected: " ++ q.stem.take 50]
      else [])) st.referencedHeadings
  cases htc : typeCheck q (refsCheck q docLen
      (st.issues ++ (if q.stem ∈ st.stems then ["Duplicate stem detected: " ++ q.stem.take 50]
        else [])) st.referencedHeadings).1 with
  | error e =>
      rw [htc] at h
      exact absurd h (by simp)
  | ok issues3 =>
      rw [htc] at h
      dsimp only at h
      obtain ⟨t2, ht2⟩ := typeCheck_extends _ _ _ htc
      rw [ht1] at ht2
      by_cases hov : questionOverlap docTerms q < 1
      · rw [if_pos hov] at h
        injection h with h'
        subst h'
        have hg : questionGrounded docTerms q = false := by
          simp only [questionGrounded, decide_eq_false_iff_not]
          omega
        refine ⟨?_, refsCheck_snd q docLen _ _, by simp [hg], fun _ => by simp⟩
        exact ⟨_, by rw [ht2, List.append_assoc, List.append_assoc, List.append_assoc]⟩
      · rw [if_neg hov] at h
        injection h with h'
        subst h'
        have hg : questionGrounded docTerms q = true := by
          simp only [questionGrounded, decide_eq_true_eq]
          omega
        refine ⟨?_, refsCheck_snd q docLen _ _, by simp [hg], fun hc => absurd hg (by simp [hc])⟩
        exact ⟨_, by rw [ht2, List.append_assoc, List.append_assoc]⟩

theorem validateLoop_spec (docLen : ℕ) (docTerms : Finset String) :
    ∀ (qs : List Question) (st st' : ValidatorState),
      qs.foldlM (validateQuestion docLen docTerms) st = Except.ok st' →
      (∃ t, st'.issues = st.issues ++ t) ∧
      st'.referencedHeadings = qs.foldl questionRefHeadings st.referencedHeadings ∧
      st'.groundedCount = st.groundedCount +
        (qs.filter (fun q => questionGrounded docTerms q)).length ∧
      ((∃ q ∈ qs, questionGrounded docTerms q = false) → st'.issues ≠ []) := by
  intro qs
  induction qs with
  | nil =>
      intro st st' h
      simp only [List.foldlM_nil] at h
      injection h with h'
      subst h'
      exact ⟨⟨[], by simp⟩, rfl, by simp, fun hc => absurd hc (by simp)⟩
  | cons a l ih =>
      intro st st' h
      rw [List.foldlM_cons] at h
      cases hstep : validateQuestion docLen docTerms st a with
      | error e =>
          rw [hstep] at h
          exact absurd h (by simp [Bind.bind, Except.bind])
      | ok st1 =>
          rw [hstep] at h
          have h' : l.foldlM (validateQuestion docLen docTerms) st1 = Except.ok st' := by
            simpa [Bind.bind, Except.bind] using h
          obtain ⟨⟨t0, ht0⟩, hrefs0, hcnt0, hne0⟩ :=
            validateQuestion_spec docLen docTerms st st1 a hstep
          obtain ⟨⟨t1, ht1⟩, hrefs1, hcnt1, hne1⟩ := ih st1 st' h'
          refine ⟨⟨t0 ++ t1, by rw [ht1, ht0, List.append_assoc]⟩, ?_, ?_, ?_⟩
          · rw [List.foldl_cons, ← hrefs0]
            exact hrefs1
          · rw [hcnt1, hcnt0, List.filter_cons]
            by_cases hga : questionGrounded docTerms a <;> (simp [hga]; try omega)
          · rintro ⟨q, hq, hgq⟩
            rcases List.mem_cons.mp hq with hcase | hcase
            · subst hcase
              rw [ht1]
              intro hcontra
              exact (hne0 hgq) (List.append_eq_nil.mp hcontra).1
            · exact hne1 ⟨q, hcase, hgq⟩

/-- C3 (amended): `valid` is true iff the issues list is empty, and a
"possibly ungrounded" grounding warning forces `valid = false` just like a
structural violation; `groundedRatio` is the fraction of questions whose
lowercase alphanumeric (length ≥ 4) term set built from stem plus reference
answer meets the document's term set, rounded to 3 decimal places;
`sectionCoverage` is the number of distinct document section headings
referenced by any question divided by the number of distinct section headings
(0.0 when the document has none), rounded to 3 decimal places. -/
theorem validate_exam_spec (exam : Exam) (document : ParsedDocument) (r : ValidationResult)
    (h : validateExam exam document = Except.ok r) :
    (r.valid = true ↔ r.issues = []) ∧
    (∀ q ∈ exam.questions,
      questionGrounded (validatorTerms document.sourceText) q = false → r.valid = false) ∧
    r.groundedRatio = pyRound 3 (if exam.questions.isEmpty then 0 else
      ((exam.questions.filter (fun q =>
          questionGrounded (validatorTerms document.sourceText) q)).length : ℚ) /
        (exam.questions.length : ℚ)) ∧
    r.sectionCoverage = pyRound 3 (if sectionHeadingsOf document = ∅ then 0 else
      ((referencedHeadingsOf exam.questions ∩ sectionHeadingsOf document).card : ℚ) /
        ((sectionHeadingsOf document).card : ℚ)) := by
  unfold validateExam at h
  dsimp only at h
  cases hfold : exam.questions.foldlM
      (validateQuestion document.sourceText.length (validatorTerms document.sourceText))
      ⟨∅, [], ∅, 0⟩ with
  | error e =>
      rw [hfold] at h
      exact absurd h (by simp)
  | ok st =>
      rw [hfold] at h
      dsimp only at h
      injection h with h'
      subst h'
      obtain ⟨⟨t, ht⟩, hrefs, hcnt, hne⟩ := validateLoop_spec _ _ _ _ _ hfold
      refine ⟨by simp, ?_, ?_, ?_⟩
      · intro q hq hgq
        have hissues : st.issues ≠ [] := hne ⟨q, hq, hgq⟩
        simp [hissues]
      · show pyRound 3 _ = pyRound 3 _
        rw [hcnt, Nat.zero_add]
      · show pyRound 3 _ = pyRound 3 _
        rw [hrefs]
        rfl

/-- A document whose term set is exactly the two words of its source text. -/
def cDoc : ParsedDocument := ⟨some "T", [⟨"A", "Alpha", 2, 0, 8⟩], "alphabet soup"⟩

/-- A structurally valid open-ended question over `cDoc`. -/
def cQ (id stem ref : String) : Question :=
  ⟨id, QuestionType.openEnded, stem, none, none, some ref,
    some ["knows basics", "gives examples"], [⟨"doc.md", some "A", 0, 8⟩], ⟨"medium", []⟩⟩

/-- A three-question exam over `cDoc` in which exactly one question (the
first) shares a term with the document. -/
def cExam : Exam :=
  ⟨"exam3", [cQ "qa" "alphabet basics" "letters exist",
    cQ "qb" "number theory" "prime facts",
    cQ "qc" "music history" "baroque tunes"], sampleConfig⟩

/-- Witness for C3 (amended): the characterisation applied to the concrete
three-question exam. -/
theorem validate_exam_spec_witness :
    ∃ r, validateExam cExam cDoc = Except.ok r ∧
      ((r.valid = true ↔ r.issues = []) ∧
      (∀ q ∈ cExam.questions,
        questionGrounded (validatorTerms cDoc.sourceText) q = false → r.valid = false) ∧
      r.groundedRatio = pyRound 3 (if cExam.questions.isEmpty then 0 else
        ((cExam.questions.filter (fun q =>
            questionGrounded (validatorTerms cDoc.sourceText) q)).length : ℚ) /
          (cExam.questions.length : ℚ)) ∧
      r.sectionCoverage = pyRound 3 (if sectionHeadingsOf cDoc = ∅ then 0 else
        ((referencedHeadingsOf cExam.questions ∩ sectionHeadingsOf cDoc).card : ℚ) /
          ((sectionHeadingsOf cDoc).card : ℚ))) := by
  obtain ⟨r, hval⟩ : ∃ r, validateExam cExam cDoc = Except.ok r := ⟨_, rfl⟩
  exact ⟨r, hval, validate_exam_spec cExam cDoc r hval⟩

/-- C3 counterexample: on the concrete three-question exam over `cDoc`, one
question in three is grounded, so the true fraction is `1/3`, but the
returned `groundedRatio` is `0.333` — the field is the fraction rounded to 3
decimal places, not the fraction itself. -/
theorem validator_grounded_ratio_counterexample :
    ∃ r, validateExam cExam cDoc = Except.ok r ∧
      r.groundedRatio = 333/1000 ∧
      ((cExam.questions.filter (fun q =>
          questionGrounded (validatorTerms cDoc.sourceText) q)).length : ℚ) /
        (cExam.questions.length : ℚ) = 1/3 ∧
      (333 : ℚ)/1000 ≠ 1/3 := by
  obtain ⟨st, hfold⟩ : ∃ st, cExam.questions.foldlM
      (validateQuestion cDoc.sourceText.length (validatorTerms cDoc.sourceText))
      ⟨∅, [], ∅, 0⟩ = Except.ok st := ⟨_, rfl⟩
  obtain ⟨-, -, hcnt, -⟩ := validateLoop_spec _ _ _ _ _ hfold
  have hcount : st.groundedCount = 1 := by
    rw [hcnt]
    rfl
  have hval : validateExam cExam cDoc = Except.ok
      ⟨decide (st.issues = []), st.issues,
        pyRound 3 ((st.groundedCount : ℚ) / (cExam.questions.length : ℚ)),
        pyRound 3 (((st.referencedHeadings ∩ sectionHeadingsOf cDoc).card : ℚ) /
          ((sectionHeadingsOf cDoc).card : ℚ))⟩ := by
    unfold validateExam
    dsimp only
    rw [hfold]
    dsimp only
    rw [if_neg (show ¬(cExam.questions.isEmpty = true) by decide),
      if_neg (show ¬(sectionHeadingsOf cDoc = ∅) by decide)]
  refine ⟨_, hval, ?_, ?_, by norm_num⟩
  · show pyRound 3 _ = 333/1000
    rw [hcount, show cExam.questions.length = 3 from rfl]
    unfold pyRound roundHalfEven
    norm_num
  · rw [show (cExam.questions.filter (fun q =>
        questionGrounded (validatorTerms cDoc.sourceText) q)).length = 1 from rfl,
      show cExam.questions.length = 3 from rfl]
    norm_num

/-- The scenario input of the spec. -/
def scenarioText : String := "# Title\n\n## A\nAlpha.\n\n## B\nBeta."

/-- Modelled from the spec: the tokenisation of `scenarioText` is performed
by the third-party `markdown_it` library, whose code is not part of this
repository.  This is its token stream for the scenario input — an ATX
heading produces `heading_open`/`inline`/`heading_close` (the opening and
inline tokens carrying the source line range), and each paragraph produces
`paragraph_open`/`inline`/`paragraph_close`. -/
def scenarioTokens : List MdToken :=
  [⟨MdTokenType.headingOpen 1, some (0, 1)⟩, ⟨MdTokenType.inline "Title", some (0, 1)⟩,
    ⟨MdTokenType.headingClose, none⟩,
    ⟨MdTokenType.headingOpen 2, some (2, 3)⟩, ⟨MdTokenType.inline "A", some (2, 3)⟩,
    ⟨MdTokenType.headingClose, none⟩,
    ⟨MdTokenType.paragraphOpen, some (3, 4)⟩, ⟨MdTokenType.inline "Alpha.", some (3, 4)⟩,
    ⟨MdTokenType.paragraphClose, none⟩,
    ⟨MdTokenType.headingOpen 2, some (5, 6)⟩, ⟨MdTokenType.inline "B", some (5, 6)⟩,
    ⟨MdTokenType.headingClose, none⟩,
    ⟨MdTokenType.paragraphOpen, some (6, 7)⟩, ⟨MdTokenType.inline "Beta.", some (6, 7)⟩,
    ⟨MdTokenType.paragraphClose, none⟩]

/-- C8: parsing `"# Title\n\n## A\nAlpha.\n\n## B\nBeta."` yields the title
"Title" (the first level-1 heading, which is not itself a section) and
exactly two sections with headings "A" then "B" in document order, with
"Alpha." contained in section A's content and "Beta." in section B's. -/
theorem parse_scenario :
    (parseMarkdown scenarioText scenarioTokens).title = some "Title" ∧
    ∃ s₁ s₂, (parseMarkdown scenarioText scenarioTokens).sections = [s₁, s₂] ∧
      s₁.heading = "A" ∧ s₂.heading = "B" ∧
      (∃ pre post, s₁.content = pre ++ "Alpha." ++ post) ∧
      (∃ pre post, s₂.content = pre ++ "Beta." ++ post) :=
  ⟨rfl, ⟨"A", "Alpha.", 2, 9, 22⟩, ⟨"B", "Beta.", 2, 22, 32⟩, rfl, rfl, rfl,
    ⟨"", "", by decide⟩, ⟨"", "", by decide⟩⟩

end LlmTester
